import Mathlib

/-!
# Verification development for `deepthink-api`

Shallow embedding of the orchestration core of the `deepthink-api`
repository, together with theorems settling the behavioural claims about
it.  The embedding covers:

* `src/app/helpers/llm.py` — the structured completion protocol
  (`_raw_completion`, `_execute_tool`, `non_empty_completion`,
  `validated_completion`);
* `src/app/think.py` — the objective state machine (`_run_objective`,
  `_should_stop_objective`) and the orchestrator scheduling loop (`think`);
* `src/app/models/state.py` — the state data model.

The opaque LLM collaborator (`litellm.acompletion`) is modelled as an
oracle: a finite list of `ModelResponse` values consumed one per
invocation.  All other behaviour is translated directly from the source.

A note on the data model: `src/app/think.py` constructs `ObjectiveState`
with a plain string `knowledge` field and assigns to it, while
`src/app/models/state.py` in this snapshot declares `knowledge` as a
read-only derived `@property` over a `knowledges` list (and requires a
`completion_criteria` field that `think.py` never supplies).  The two
files come from different revisions.  The structures in the root
namespace model the fields exactly as `think.py` reads and writes them;
the `StateModel` namespace models `state.py`'s declarations verbatim.
The conflict itself is settled by the theorems about
`StateModel.ObjectiveState.knowledge`.
-/

/-! ## Constants (src/app/helpers/llm.py line 56, src/app/think.py lines 18-20) -/

def MAX_SIMULTANEOUS_TOOLS : Nat := 5

def MAX_OBJECTIVES : Nat := 5

def MIN_STEPS : Nat := 3

def MAX_STEPS : Nat := 10

/-! ## Messages and model responses

The message union `MessagesList` (llm.py lines 30-36) admits system, user
and assistant params, litellm `Message` objects (appended wholesale in the
tool branch, llm.py line 294) and tool-result params.
-/

/-- The `function` part of a litellm `ChatCompletionMessageToolCall`:
`name` is optional (llm.py line 378 guards a missing name), `arguments`
is the raw JSON string. -/
structure ToolCallFunction where
  name : Option String
  arguments : String
deriving DecidableEq, Repr

/-- A litellm `ChatCompletionMessageToolCall`. -/
structure ToolCall where
  id : String
  function : ToolCallFunction
deriving DecidableEq, Repr

/-- The `choice.message` of a model response: optional text content plus
the requested tool calls.  Python's `None` and `[]` for `tool_calls` are
both falsy at llm.py line 289, so both are modelled as `[]`. -/
structure ModelMessage where
  content : Option String
  tool_calls : List ToolCall
deriving DecidableEq, Repr

/-- One response of the opaque model collaborator: the first choice's
message and its finish reason (llm.py lines 274, 327). -/
structure ModelResponse where
  message : ModelMessage
  finish_reason : String
deriving DecidableEq, Repr

/-- One element of a `MessagesList`.  `assistantToolCall` is the litellm
`Message` carrying tool calls that llm.py line 294 appends verbatim;
`tool` is a `ChatCompletionToolMessageParam` (its `role` is always the
literal `"tool"` and is left implicit). -/
inductive Msg
  | system (content : String)
  | user (content : String)
  | assistant (content : String)
  | assistantToolCall (message : ModelMessage)
  | tool (content : String) (tool_call_id : String)
deriving DecidableEq, Repr

/-! ## Tools and `_execute_tool` (llm.py lines 372-423) -/

/-- Outcome of awaiting a tool coroutine on given JSON arguments, covering
the three ways llm.py lines 407-417 can go: a returned string, a
`TypeError` (caught, turned into a "Bad arguments" message), or any other
exception (uncaught — e.g. `json.loads` raising `JSONDecodeError`, which
the `except TypeError` clause does not catch). -/
inductive ToolRun
  | ok (response : String)
  | typeError (message : String)
  | raised (message : String)
deriving DecidableEq, Repr

/-- A caller-supplied tool: its `__name__` and its behaviour on the raw
arguments string (argument JSON-parsing and keyword binding are folded
into `run`, see `ToolRun`). -/
structure Tool where
  name : String
  run : String → ToolRun

/-- Python truthiness of `tool_call.function.name` at llm.py line 379:
`None` and the empty string are both falsy. -/
def function_name_missing (tc : ToolCall) : Bool :=
  match tc.function.name with
  | none => true
  | some s => s == ""

/-- The `available_functions` dict built at llm.py line 291 is keyed by
`__name__`, so a later tool with the same name overwrites an earlier one;
lookup therefore finds the last match. -/
def available_functions_lookup (tools : List Tool) (nm : String) : Option Tool :=
  tools.reverse.find? (fun t => t.name == nm)

/-- `_execute_tool` (llm.py lines 372-423).  Returns `Except.error` for an
exception escaping the coroutine (modelling `ToolRun.raised`), otherwise
the `ChatCompletionToolMessageParam` produced, as a `Msg.tool`. -/
def _execute_tool (tools : List Tool) (position : Nat) (tool_call : ToolCall) :
    Except String Msg :=
  match tool_call.function.name with
  | none => Except.ok (Msg.tool "No function name provided." tool_call.id)
  | some function_name =>
    if function_name == "" then
      Except.ok (Msg.tool "No function name provided." tool_call.id)
    else
      match available_functions_lookup tools function_name with
      | none =>
        Except.ok (Msg.tool ("Function \x27" ++ function_name ++ "\x27 not available.")
          tool_call.id)
      | some function_to_call =>
        if MAX_SIMULTANEOUS_TOOLS ≤ position then
          Except.ok (Msg.tool
            ("Too many tools called at once (limit is " ++
              toString MAX_SIMULTANEOUS_TOOLS ++ ").") tool_call.id)
        else
          match function_to_call.run tool_call.function.arguments with
          | ToolRun.ok function_response =>
            Except.ok (Msg.tool function_response tool_call.id)
          | ToolRun.typeError e =>
            Except.ok (Msg.tool ("Bad arguments: " ++ e) tool_call.id)
          | ToolRun.raised e => Except.error e

/-- Whether `_execute_tool` reaches the execution path (llm.py line 403
onwards): a present, known function name at a position below
`MAX_SIMULTANEOUS_TOOLS`. -/
def tool_executed (tools : List Tool) (position : Nat) (tool_call : ToolCall) : Bool :=
  !function_name_missing tool_call &&
    (match tool_call.function.name with
     | none => false
     | some nm => (available_functions_lookup tools nm).isSome) &&
    decide (position < MAX_SIMULTANEOUS_TOOLS)

/-- The per-response tool fan-out of llm.py lines 297-308: one
`_execute_tool` per requested call, in `enumerate` order. -/
def run_tools (tools : List Tool) (tool_calls : List ToolCall) :
    List (Except String Msg) :=
  tool_calls.enum.map (fun p => _execute_tool tools p.1 p.2)

/-- `asyncio.gather` with default arguments propagates an exception raised
by any of the gathered coroutines; we model the propagated one as the
first in list order (which exception wins is timing-dependent in the
source; no claim depends on the choice). -/
def first_tool_error (results : List (Except String Msg)) : Option String :=
  results.findSome? (fun e => match e with
    | Except.error m => some m
    | Except.ok _ => none)

/-- The successfully produced tool-result messages, in order. -/
def ok_tool_msgs (results : List (Except String Msg)) : List Msg :=
  results.filterMap (fun e => match e with
    | Except.ok m => some m
    | Except.error _ => none)

/-! ## `_raw_completion` (llm.py lines 201-369)

The recursion is modelled over a finite oracle of model responses; each
invocation of `litellm.acompletion` consumes the head.  The run records
every request actually answered by the oracle (`SentReq` keeps the
outgoing message list of llm.py lines 259-262 and the names of the
offered tools, i.e. the `tools_dict` of lines 227-233).  Token accounting
(lines 276-285) mutates only the shared `Usage` counters, which the spec
declares approximate and no claim touches; it is not modelled.
-/

/-- Outcome of a `_raw_completion` run: a validated value, a
`CompletionException` with its message, an exception escaping a tool
execution, or exhaustion of the response oracle (the run is not
determined further by the modelled responses). -/
inductive RawOutcome (T : Type)
  | value (t : T)
  | completionError (message : String)
  | toolRaise (message : String)
  | outOfResponses
deriving DecidableEq, Repr

/-- One request sent to the model: the composed message list and the
names of the tools offered alongside it. -/
structure SentReq where
  messages : List Msg
  toolNames : List String
deriving DecidableEq, Repr

/-- Result of a `_raw_completion` run: the outcome, the trace of
answered requests in order, and the responses consumed from the oracle
(one per model invocation, so `consumed.length` is the number of model
invocations performed and `consumed` is the prefix of the oracle that
was used). -/
structure RawRun (T : Type) where
  outcome : RawOutcome T
  sent : List SentReq
  consumed : List ModelResponse
deriving DecidableEq, Repr

/-- Lines 235-256 of llm.py: when retrying after a validation error, the
previous (assistant) response and a user message restating the error are
appended to the local history.  Python truthiness: an empty
`_validation_error` or `_previous_result` string is falsy and skipped. -/
def add_validation_context (local_history : List Msg)
    (_previous_result : Option String) (_validation_error : Option String) :
    List Msg :=
  match _validation_error with
  | none => local_history
  | some verr =>
    if verr = "" then local_history
    else
      (match _previous_result with
       | none => local_history
       | some prev =>
         if prev = "" then local_history
         else local_history ++ [Msg.assistant prev]) ++
      [Msg.user ("A validation error occurred, please retry: " ++ verr)]

/-- `_raw_completion` (llm.py lines 201-369), by structural recursion on
the response oracle.  `local_history` is the value of the list built at
lines 220-256; the heap-level copy discipline of line 220 is modelled
separately by `_raw_completion_heap`. -/
def _raw_completion {T : Type} (oracle : List ModelResponse)
    (existing_history : List Msg) (json : Bool) (system : String)
    (tools : List Tool) (validation_callback : String → Except String T)
    (_previous_result : Option String) (_retries_remaining : Nat)
    (_validation_error : Option String) : RawRun T :=
  let local_history :=
    add_validation_context existing_history _previous_result _validation_error
  let sent : SentReq :=
    ⟨Msg.system system :: local_history, tools.map Tool.name⟩
  match oracle with
  | [] => ⟨RawOutcome.outOfResponses, [], []⟩
  | r :: rest =>
    if r.message.tool_calls.isEmpty then
      -- no tool calls: termination check (lines 326-336) then validation
      if r.finish_reason ≠ "stop" then
        ⟨RawOutcome.completionError
          ("Completion did not finish correctly: " ++ r.finish_reason),
          [sent], [r]⟩
      else
        match r.message.content with
        | none =>
          ⟨RawOutcome.completionError "Completion message is empty", [sent], [r]⟩
        | some content =>
          if content = "" then
            ⟨RawOutcome.completionError "Completion message is empty", [sent], [r]⟩
          else
            match validation_callback content with
            | Except.ok t => ⟨RawOutcome.value t, [sent], [r]⟩
            | Except.error e =>
              if _retries_remaining = 0 then
                ⟨RawOutcome.completionError
                  ("Validation failed and no retries left: " ++ e), [sent], [r]⟩
              else
                let rec_run := _raw_completion rest local_history json system
                  tools validation_callback (some content)
                  (_retries_remaining - 1) (some e)
                ⟨rec_run.outcome, sent :: rec_run.sent, r :: rec_run.consumed⟩
    else
      -- tool branch (lines 287-324)
      let results := run_tools tools r.message.tool_calls
      match first_tool_error results with
      | some m => ⟨RawOutcome.toolRaise m, [sent], [r]⟩
      | none =>
        let extended := local_history ++
          Msg.assistantToolCall r.message :: ok_tool_msgs results
        let rec_run := _raw_completion rest extended json system []
          validation_callback _previous_result _retries_remaining
          _validation_error
        ⟨rec_run.outcome, sent :: rec_run.sent, r :: rec_run.consumed⟩

/-- The decorated system prompt of `non_empty_completion`
(llm.py lines 83-88). -/
def non_empty_system (system : String) : String :=
  "\n        " ++ system ++
    "\n\n        # Response format\n        string\n    "

/-- The `_validate` callback of `non_empty_completion`
(llm.py lines 90-100): an empty response is a `ValidationException`. -/
def non_empty_validate (req : String) : Except String String :=
  if req = "" then Except.error "Empty response" else Except.ok req

/-- `non_empty_completion` (llm.py lines 67-113).  The retry counter and
validation-error context take `_raw_completion`'s defaults
(`_retries_remaining = 10`, lines 211-213). -/
def non_empty_completion (oracle : List ModelResponse) (system : String)
    (json : Bool := false) (existing_history : List Msg := [])
    (tools : List Tool := []) : RawRun String :=
  _raw_completion oracle existing_history json (non_empty_system system)
    tools non_empty_validate none 10 none

/-- The decorated system prompt of `validated_completion`
(llm.py lines 180-185); `schema` stands for the JSON schema string that
pydantic renders from `res_type`. -/
def validated_system (system schema : String) : String :=
  "\n        " ++ system ++
    "\n\n        # Response JSON schema\n        " ++ schema ++ "\n    "

/-- `validated_completion` (llm.py lines 116-198).  The pydantic parsing
machinery of the inner `_validate` (lines 135-177) is opaque to this
embedding and is passed in as `validator`; like the source's callback it
either produces a value of the target type or a `ValidationException`
message.  The retry counter takes `_raw_completion`'s default 10. -/
def validated_completion {P : Type} (oracle : List ModelResponse)
    (validator : String → Except String P) (schema : String) (system : String)
    (existing_history : List Msg := []) (tools : List Tool := []) : RawRun P :=
  _raw_completion oracle existing_history true (validated_system system schema)
    tools validator none 10 none

/-! ## think.py data model (as read and written by src/app/think.py) -/

/-- `ObjectiveStatus` (src/app/models/state.py lines 10-14). -/
inductive ObjectiveStatus
  | completed
  | failed
  | in_progress
  | pending
deriving DecidableEq, Repr

/-- `StepState` (src/app/models/state.py lines 17-23). -/
structure StepState where
  short_name : String
  thinking : String
deriving DecidableEq, Repr

/-- `ObjectiveState` with exactly the fields `src/app/think.py`
constructs (lines 30-36, 229-235) and mutates (lines 251, 263-264, 269,
277, 353): a plain string `knowledge` scratchpad, `status`, `answer` and
the step list.  `src/app/models/state.py` in this snapshot declares the
type differently (see `StateModel.ObjectiveState`). -/
structure ObjectiveState where
  answer : Option String := none
  description : String
  knowledge : String := ""
  short_name : String
  status : ObjectiveStatus := ObjectiveStatus.pending
  steps : List StepState := []
deriving DecidableEq, Repr

/-- Python's `str.lower`, character-by-character; on the ASCII strings
involved in the stop check it is ASCII lowercasing. -/
def py_lower (s : String) : String :=
  String.mk (s.toList.map Char.toLower)

/-- The response interpretation of `_should_stop_objective`
(src/app/think.py lines 327-332), applied to the string produced by the
stop-check completion: `"can't answer" in res.lower()` — a response
*containing* the phrase case-insensitively — returns `False` (here
`none`); any other response is returned as the answer. -/
def _should_stop_objective (res : String) : Option String :=
  if "can\x27t answer".toList <:+: (py_lower res).toList then none
  else some res

/-! ## `_run_objective` (src/app/think.py lines 238-285)

The two collaborator calls of the loop body are modelled as oracles
indexed by call count: `stops n` is the string produced by the `n`-th
`_should_stop_objective` completion (or the message of a
`CompletionException` escaping it), and `step_oracle n` is the
`StepState` produced by the `n`-th `_new_step` call (or an escaping
exception's message).  An escaping exception ends the objective's task
with the objective left as-is (think.py has no handler).

The `while` loop appends a step on every non-breaking iteration and
breaks once `MAX_STEPS` is reached, so it performs at most
`MAX_STEPS + 1` iterations; the fuel argument is set accordingly by
`_run_objective`.
-/

deriving instance DecidableEq for Except

/-- Observable events of one `_run_objective` run: a stop check (with the
step count at check time and the interpreted outcome), an appended step,
or a `CompletionException` escaping `_new_step`. -/
inductive RunEvent
  | stopCheck (stepsSoFar : Nat) (outcome : Except String (Option String))
  | stepAdded (st : StepState)
  | stepRaise (message : String)
deriving DecidableEq, Repr

/-- Result of a `_run_objective` run: the final objective, the event
list, and the trace of objective states after each mutation of the
objective. -/
structure ObjRun where
  objective : ObjectiveState
  events : List RunEvent
  trace : List ObjectiveState
deriving DecidableEq, Repr

/-- The guarded stop check of think.py lines 254-260: performed only once
the objective has at least `MIN_STEPS` steps; its result is the
interpreted response (or an escaping exception). -/
def stop_check (stops : Nat → Except String String) (sIdx : Nat)
    (o : ObjectiveState) : Option (Except String (Option String)) :=
  if MIN_STEPS ≤ o.steps.length then
    some (match stops sIdx with
      | Except.error m => Except.error m
      | Except.ok res => Except.ok (_should_stop_objective res))
  else none

/-- The `while` loop of `_run_objective` (think.py lines 253-283).
`sIdx` and `stIdx` count the stop-check and `_new_step` calls made so
far. -/
def _run_objective_loop (stops : Nat → Except String String)
    (step_oracle : Nat → Except String StepState) :
    Nat → Nat → Nat → ObjectiveState → ObjRun
  | 0, _, _, o => ⟨o, [], []⟩
  | fuel + 1, sIdx, stIdx, o =>
    if o.status = ObjectiveStatus.in_progress then
      match stop_check stops sIdx o with
      | some (Except.error m) =>
        -- CompletionException escapes the task; the objective is unchanged
        ⟨o, [RunEvent.stopCheck o.steps.length (Except.error m)], [o]⟩
      | some (Except.ok (some ans)) =>
        -- lines 261-265: completed, answer recorded, loop ends
        let o2 := { o with status := ObjectiveStatus.completed, answer := some ans }
        ⟨o2, [RunEvent.stopCheck o.steps.length (Except.ok (some ans))], [o2]⟩
      | other =>
        -- `other` is `none` (no check yet) or `some (.ok none)` (declined)
        let ev0 : List RunEvent :=
          match other with
          | some (Except.ok none) =>
            [RunEvent.stopCheck o.steps.length (Except.ok none)]
          | _ => []
        let sIdx2 := if MIN_STEPS ≤ o.steps.length then sIdx + 1 else sIdx
        if MAX_STEPS ≤ o.steps.length then
          -- lines 267-270: max steps reached, transition to Failed
          let o2 := { o with status := ObjectiveStatus.failed }
          ⟨o2, ev0, [o2]⟩
        else
          match step_oracle stIdx with
          | Except.error m => ⟨o, ev0 ++ [RunEvent.stepRaise m], [o]⟩
          | Except.ok st =>
            -- lines 272-277: produce and append one step
            let o2 := { o with steps := o.steps ++ [st] }
            let r2 := _run_objective_loop stops step_oracle fuel sIdx2 (stIdx + 1) o2
            ⟨r2.objective, ev0 ++ RunEvent.stepAdded st :: r2.events, o2 :: r2.trace⟩
    else ⟨o, [], []⟩

/-- `_run_objective` (think.py lines 238-285): set the objective
`in_progress` (line 251) and run the loop.  `MAX_STEPS + 1` iterations
always suffice (see `_run_objective_loop`). -/
def _run_objective (stops : Nat → Except String String)
    (step_oracle : Nat → Except String StepState) (o : ObjectiveState) : ObjRun :=
  let o1 := { o with status := ObjectiveStatus.in_progress }
  let r := _run_objective_loop stops step_oracle (MAX_STEPS + 1) 0 0 o1
  ⟨r.objective, r.events, o1 :: r.trace⟩

/-! ## `think` orchestration loop (src/app/think.py lines 23-88)

The scheduler is modelled sequentially: a spawned objective task runs to
completion at the barrier of lines 53-55 (the poll waits until no
scheduled task is active), so each round first runs all
scheduled-but-not-yet-run tasks, then asks for new objectives.  What a
task does to its own objective is abstracted as `run_obj` (its faithful
embedding is `_run_objective`; the claims about the orchestrator concern
only the shape of the objectives list, which no task touches).
`detect n` is the validated result of the `n`-th
`_detect_new_objectives` call.  The Python loop can poll indefinitely,
so the embedding carries fuel: a round count after which the model stops;
all properties proved about it are invariants that hold at every
round. -/

/-- One entry of `ThinkState.objectives` together with its scheduling
flag: `scheduled` is true between `scheduler.spawn` and the completion of
the spawned `_run_objective` task. -/
structure SchedObj where
  state : ObjectiveState
  scheduled : Bool
deriving DecidableEq, Repr

/-- The barrier of think.py lines 53-55: every scheduled task runs to
completion. -/
def barrier_run (run_obj : ObjectiveState → ObjectiveState)
    (objectives : List SchedObj) : List SchedObj :=
  objectives.map (fun p => if p.scheduled then ⟨run_obj p.state, false⟩ else p)

/-- The proposal-acceptance loop of think.py lines 58-65: walk the
proposed objectives in order, stopping (`break`) as soon as the total
count has reached `MAX_OBJECTIVES`, otherwise appending the proposal
(pending, and scheduled by lines 82-88).  Returns the new list and the
number of accepted proposals (`len(new_objectives)`). -/
def accept_proposals (objectives : List SchedObj)
    (proposals : List ObjectiveState) : List SchedObj × Nat :=
  match proposals with
  | [] => (objectives, 0)
  | p :: ps =>
    if MAX_OBJECTIVES ≤ objectives.length then (objectives, 0)
    else
      let r := accept_proposals (objectives ++ [⟨p, true⟩]) ps
      (r.1, r.2 + 1)

/-- The scheduling `while` loop of think.py lines 48-88. -/
def think_loop (run_obj : ObjectiveState → ObjectiveState)
    (detect : Nat → List ObjectiveState) :
    Nat → Nat → List SchedObj → List SchedObj
  | 0, _, objectives => objectives
  | fuel + 1, round, objectives =>
    -- line 48: while any objective is IN_PROGRESS or PENDING
    if objectives.any (fun p =>
        p.state.status = ObjectiveStatus.in_progress ∨
        p.state.status = ObjectiveStatus.pending) then
      let after_run := barrier_run run_obj objectives
      let accepted := accept_proposals after_run (detect round)
      if accepted.2 = 0 then
        -- lines 67-74: no new objectives
        if MAX_OBJECTIVES ≤ accepted.1.length then accepted.1
        else think_loop run_obj detect fuel (round + 1) accepted.1
      else think_loop run_obj detect fuel (round + 1) accepted.1
    else objectives

/-- The root objective seeded by `think` (think.py lines 30-36). -/
def think_root (user_question : String) : ObjectiveState :=
  { description :=
      "Identify the ins and outs of the question. What? Why? How? When? Where? Who?",
    knowledge := "User question is: " ++ user_question,
    short_name := "Identify question" }

/-- The objectives list produced by a `think` run (think.py lines 23-88):
root objective seeded and spawned, then the scheduling loop. -/
def think_objectives (run_obj : ObjectiveState → ObjectiveState)
    (detect : Nat → List ObjectiveState) (fuel : Nat)
    (user_question : String) : List SchedObj :=
  think_loop run_obj detect fuel 0 [⟨think_root user_question, true⟩]

/-- A task proposed by `_detect_new_objectives`'s `_Res.tasks`
(think.py lines 188-195). -/
structure ProposedTask where
  description : String
  short_name : String
deriving DecidableEq, Repr

/-- The pydantic `max_length=3` constraint on `_Res.tasks`
(think.py lines 192-195): a proposal list longer than 3 tasks fails
validation (a `ValidationException` inside `validated_completion`), so a
successfully validated proposal round has at most 3 tasks. -/
def detect_res_validate (tasks : List ProposedTask) :
    Except String (List ProposedTask) :=
  if 3 < tasks.length then
    Except.error "List should have at most 3 items after validation"
  else Except.ok tasks

/-! ## `state.py`'s declaration of the data model (src/app/models/state.py)

`think.py` (embedded above) treats `knowledge` as a plain assignable
string field.  `state.py` instead declares a `knowledges` list of
`KnowledgeState` and derives `knowledge` as a read-only `@property`
(lines 56-66); it also requires a `completion_criteria` field.  The
theorems for the knowledge-recording tool are settled against this
declaration. -/

namespace StateModel

/-- `KnowledgeState` (state.py lines 26-29). -/
structure KnowledgeState where
  description : String
  short_name : String
  source : String
deriving DecidableEq, Repr

/-- `ObjectiveState` as declared in state.py lines 32-39. -/
structure ObjectiveState where
  answer : Option String := none
  completion_criteria : String
  description : String
  knowledges : List KnowledgeState := []
  short_name : String
  status : ObjectiveStatus := ObjectiveStatus.pending
  steps : List StepState := []
deriving DecidableEq, Repr

/-- The read-only `knowledge` property (state.py lines 56-66): a
rendering of the `knowledges` list, joined with newlines. -/
def ObjectiveState.knowledge (o : ObjectiveState) : String :=
  String.intercalate "\n"
    (o.knowledges.map (fun k =>
      "### " ++ k.short_name ++ "\n" ++ k.description ++ "\nSource: " ++ k.source))

end StateModel

/-! ## Heap-level model of `_raw_completion`'s history handling

`_raw_completion` receives `existing_history` by reference and its first
action is `existing_history.copy()` (llm.py line 220); every `append` and
`extend` afterwards targets the copy.  To state that the caller's list
object is never mutated, the message lists are placed in an explicit
store of list objects addressed by index, histories are passed as
indices, and the run returns the final store. -/

/-- A store of Python list objects holding message lists. -/
structure Store where
  objs : List (List Msg)
deriving DecidableEq, Repr

/-- Dereference a list object (out-of-range reads give `[]`; the embedded
code only dereferences live indices). -/
def Store.get (s : Store) (i : Nat) : List Msg :=
  (s.objs[i]?).getD []

/-- Allocate a fresh list object (`list.copy()` allocates). -/
def Store.alloc (s : Store) (v : List Msg) : Store × Nat :=
  (⟨s.objs ++ [v]⟩, s.objs.length)

/-- Overwrite the contents of a list object (the net effect of
`append`/`extend` calls on it). -/
def Store.put (s : Store) (i : Nat) (v : List Msg) : Store :=
  ⟨s.objs.set i v⟩

/-- Outcome-and-store result of a heap-level `_raw_completion` run. -/
structure RawRunHeap (T : Type) where
  outcome : RawOutcome T
  store : Store

/-- Heap-level `_raw_completion`: identical control flow to
`_raw_completion`, with `existing_history` passed as a store index.
Line 220's `existing_history.copy()` allocates `local_history` as a fresh
object; the context messages of lines 235-256, the assistant reply of
line 294 and the tool results of lines 297-308 are appended to that
fresh object only.  Both recursive calls (lines 311-324 and 356-369)
pass `local_history` — an object this frame allocated — as the callee's
`existing_history`. -/
def _raw_completion_heap {T : Type} (oracle : List ModelResponse)
    (store : Store) (existing_history : Nat) (json : Bool) (system : String)
    (tools : List Tool) (validation_callback : String → Except String T)
    (_previous_result : Option String) (_retries_remaining : Nat)
    (_validation_error : Option String) : RawRunHeap T :=
  let alloc := store.alloc (store.get existing_history)
  let s1 := alloc.1
  let local_history := alloc.2
  let s2 := s1.put local_history
    (add_validation_context (s1.get local_history) _previous_result
      _validation_error)
  match oracle with
  | [] => ⟨RawOutcome.outOfResponses, s2⟩
  | r :: rest =>
    if r.message.tool_calls.isEmpty then
      if r.finish_reason ≠ "stop" then
        ⟨RawOutcome.completionError
          ("Completion did not finish correctly: " ++ r.finish_reason), s2⟩
      else
        match r.message.content with
        | none => ⟨RawOutcome.completionError "Completion message is empty", s2⟩
        | some content =>
          if content = "" then
            ⟨RawOutcome.completionError "Completion message is empty", s2⟩
          else
            match validation_callback content with
            | Except.ok t => ⟨RawOutcome.value t, s2⟩
            | Except.error e =>
              if _retries_remaining = 0 then
                ⟨RawOutcome.completionError
                  ("Validation failed and no retries left: " ++ e), s2⟩
              else
                _raw_completion_heap rest s2 local_history json system tools
                  validation_callback (some content) (_retries_remaining - 1)
                  (some e)
    else
      let results := run_tools tools r.message.tool_calls
      match first_tool_error results with
      | some m =>
        ⟨RawOutcome.toolRaise m,
          s2.put local_history
            (s2.get local_history ++ [Msg.assistantToolCall r.message])⟩
      | none =>
        let s3 := s2.put local_history
          (s2.get local_history ++
            Msg.assistantToolCall r.message :: ok_tool_msgs results)
        _raw_completion_heap rest s3 local_history json system []
          validation_callback _previous_result _retries_remaining
          _validation_error

/-- Heap-level `non_empty_completion` (llm.py lines 67-113). -/
def non_empty_completion_heap (oracle : List ModelResponse) (store : Store)
    (existing_history : Nat) (system : String) (json : Bool := false)
    (tools : List Tool := []) : RawRunHeap String :=
  _raw_completion_heap oracle store existing_history json
    (non_empty_system system) tools non_empty_validate none 10 none

/-- Heap-level `validated_completion` (llm.py lines 116-198). -/
def validated_completion_heap {P : Type} (oracle : List ModelResponse)
    (store : Store) (existing_history : Nat)
    (validator : String → Except String P) (schema : String) (system : String)
    (tools : List Tool := []) : RawRunHeap P :=
  _raw_completion_heap oracle store existing_history true
    (validated_system system schema) tools validator none 10 none

/-! ## Concrete instances used by witnesses and counterexamples -/

/-- A tool named `"t"` that always returns a string. -/
def sample_tool : Tool := ⟨"t", fun _ => ToolRun.ok "tool says hi"⟩

/-- A tool call requesting function `"t"` with empty arguments. -/
def sample_call (id : String) : ToolCall := ⟨id, ⟨some "t", ""⟩⟩

/-- Six tool calls for function `"t"`: one more than
`MAX_SIMULTANEOUS_TOOLS`. -/
def sample_calls_six : List ToolCall :=
  [sample_call "0", sample_call "1", sample_call "2", sample_call "3",
    sample_call "4", sample_call "5"]

/-- A plain-text model response with the given content. -/
def resp_text (c : String) : ModelResponse := ⟨⟨some c, []⟩, "stop"⟩

/-- A model response requesting one call of function `"t"`. -/
def resp_tool : ModelResponse := ⟨⟨none, [⟨"1", ⟨some "t", ""⟩⟩]⟩, "tool_calls"⟩

/-- A validation callback that rejects exactly the response `"c1"`,
with error text `"E1"`. -/
def vc_sample : String → Except String String :=
  fun s => if s = "c1" then Except.error "E1" else Except.ok s

/-- A run in which the first response fails validation, the retry
response requests a tool call, and the follow-up response passes
validation. -/
def run_tool_after_retry : RawRun String :=
  _raw_completion [resp_text "c1", resp_tool, resp_text "ok"] [Msg.user "Q"]
    false "S" [sample_tool] vc_sample none 10 none

/-- A run in which the first response fails validation and the retry
response passes. -/
def run_plain_retry : RawRun String :=
  _raw_completion [resp_text "c1", resp_text "ok"] [Msg.user "Q"]
    false "S" [] vc_sample none 10 none

/-- An objective as state.py declares it, with an empty `knowledges`
list. -/
def sample_state_objective : StateModel.ObjectiveState :=
  { completion_criteria := "", description := "", short_name := "" }

/-- A fresh objective as think.py constructs them. -/
def sample_objective : ObjectiveState :=
  { description := "What is X?", knowledge := "", short_name := "X" }

/-- A validation callback that always raises a `ValidationException`,
with error text derived from the response. -/
def vc_fail : String → Except String String :=
  fun s => Except.error ("bad " ++ s)

/-- The error text produced by `vc_fail`. -/
def errf_fail : String → String := fun s => "bad " ++ s

/-- Three well-formed plain responses. -/
def oracle_three : List ModelResponse :=
  [resp_text "a", resp_text "b", resp_text "c"]

/-- A stop-check oracle that always answers confidently. -/
def stops_yes : Nat → Except String String :=
  fun _ => Except.ok "The capital is Paris."

/-- A step oracle that always produces a step. -/
def steps_ok : Nat → Except String StepState :=
  fun _ => Except.ok ⟨"step", "thinking"⟩

/-- A stop-check oracle that always declines to answer. -/
def stops_no : Nat → Except String String :=
  fun _ => Except.ok "Can\x27t answer"

/-! # Theorems -/

/-! ## C2 — tool fan-out bound and rejections -/

lemma countP_enumFrom_le {α : Type} (p : Nat × α → Bool) (k : Nat)
    (hp : ∀ x, p x = true → x.1 < k) :
    ∀ (l : List α) (s : Nat), (List.enumFrom s l).countP p ≤ k - s := by
  intro l
  induction l with
  | nil => intro s; simp [List.countP_nil]
  | cons a l ih =>
    intro s
    rw [List.enumFrom_cons, List.countP_cons]
    by_cases hpa : p (s, a) = true
    · have hs : s < k := hp _ hpa
      have h2 := ih (s + 1)
      rw [if_pos hpa]
      omega
    · have h2 := ih (s + 1)
      rw [if_neg hpa]
      omega

/-- C2: in one model response's tool fan-out (llm.py lines 296-308 and
372-423), at most `MAX_SIMULTANEOUS_TOOLS` of the requested calls reach
the execution path; there is one result message per requested call, in
the position of the originating call; and every call at position
`MAX_SIMULTANEOUS_TOOLS` or later, every call whose function name is
missing, and every call naming an unknown function is not executed and
yields a synthetic rejection tool-result message (never an error). -/
theorem tool_round_bounded_and_rejections (tools : List Tool)
    (tool_calls : List ToolCall) :
    List.countP (fun pr => tool_executed tools pr.1 pr.2) tool_calls.enum ≤
      MAX_SIMULTANEOUS_TOOLS ∧
    (run_tools tools tool_calls).length = tool_calls.length ∧
    (∀ i tc, tool_calls[i]? = some tc →
      (MAX_SIMULTANEOUS_TOOLS ≤ i ∨ function_name_missing tc = true ∨
        (∀ nm, tc.function.name = some nm →
          available_functions_lookup tools nm = none)) →
      tool_executed tools i tc = false ∧
      ∃ m, (run_tools tools tool_calls)[i]? = some (Except.ok (Msg.tool m tc.id)) ∧
        (m = "No function name provided." ∨
          (∃ nm, tc.function.name = some nm ∧
            m = "Function \x27" ++ nm ++ "\x27 not available.") ∨
          m = "Too many tools called at once (limit is 5).")) := by
  refine ⟨?_, ?_, ?_⟩
  · have h := countP_enumFrom_le (fun pr => tool_executed tools pr.1 pr.2)
      MAX_SIMULTANEOUS_TOOLS ?_ tool_calls 0
    · simpa [List.enum] using h
    · intro x hx
      simp only [tool_executed, Bool.and_eq_true, decide_eq_true_eq] at hx
      exact hx.2
  · simp [run_tools, List.enum_length]
  · intro i tc hget hrej
    have hrt : (run_tools tools tool_calls)[i]? =
        some (_execute_tool tools i tc) := by
      rw [run_tools, List.getElem?_map, List.getElem?_enum, hget]
      rfl
    match hname : tc.function.name with
    | none =>
      refine ⟨by simp [tool_executed, function_name_missing, hname], ?_⟩
      refine ⟨"No function name provided.", ?_, Or.inl rfl⟩
      rw [hrt]
      unfold _execute_tool
      rw [hname]
    | some nm =>
      by_cases hempty : nm = ""
      · subst hempty
        refine ⟨by simp [tool_executed, function_name_missing, hname], ?_⟩
        refine ⟨"No function name provided.", ?_, Or.inl rfl⟩
        rw [hrt]
        unfold _execute_tool
        rw [hname]
        rfl
      · match hlook : available_functions_lookup tools nm with
        | none =>
          refine ⟨by simp [tool_executed, function_name_missing, hname, hlook], ?_⟩
          refine ⟨"Function \x27" ++ nm ++ "\x27 not available.", ?_,
            Or.inr (Or.inl ⟨nm, rfl, rfl⟩)⟩
          rw [hrt]
          unfold _execute_tool
          rw [hname]
          simp [hempty, hlook]
        | some f =>
          have hpos : MAX_SIMULTANEOUS_TOOLS ≤ i := by
            rcases hrej with h | h | h
            · exact h
            · exfalso
              simp [function_name_missing, hname, hempty] at h
            · exfalso
              have h5 := h nm hname
              rw [h5] at hlook
              exact Option.noConfusion hlook
          have hdec : (decide (i < MAX_SIMULTANEOUS_TOOLS)) = false := by
            simp only [MAX_SIMULTANEOUS_TOOLS] at hpos ⊢
            simp only [decide_eq_false_iff_not]
            omega
          refine ⟨by simp [tool_executed, hdec], ?_⟩
          refine ⟨"Too many tools called at once (limit is 5).", ?_,
            Or.inr (Or.inr rfl)⟩
          rw [hrt]
          unfold _execute_tool
          rw [hname]
          simp only [beq_iff_eq, if_neg hempty, hlook, if_pos hpos,
            Option.some.injEq, Except.ok.injEq, Msg.tool.injEq, and_true]
          decide

/-- Witness for C2 at a concrete input: the sixth call (position 5) of a
six-call round naming the lone available tool is rejected, not
executed. -/
theorem tool_round_bounded_and_rejections_witness :
    tool_executed [sample_tool] 5 (sample_call "5") = false ∧
    ∃ m, (run_tools [sample_tool] sample_calls_six)[5]? =
        some (Except.ok (Msg.tool m (sample_call "5").id)) ∧
      (m = "No function name provided." ∨
        (∃ nm, (sample_call "5").function.name = some nm ∧
          m = "Function \x27" ++ nm ++ "\x27 not available.") ∨
        m = "Too many tools called at once (limit is 5).") :=
  (tool_round_bounded_and_rejections [sample_tool] sample_calls_six).2.2 5
    (sample_call "5") (by decide) (Or.inl (by decide))

/-! ## C7 — interpretation of the stop-check response -/

/-- C7 counterexample: the claim states that any non-empty response other
than the decline phrase itself (in any letter case) is interpreted as the
final answer.  The response `"I really can't answer this"` is non-empty
and differs from the phrase in every letter case, yet
`_should_stop_objective` interprets it as "continue" (`none`), because
the source performs a substring test (`"can't answer" in res.lower()`),
not an equality test. -/
theorem should_stop_equality_counterexample :
    _should_stop_objective "I really can\x27t answer this" = none ∧
    "I really can\x27t answer this" ≠ "" ∧
    py_lower "I really can\x27t answer this" ≠ "can\x27t answer" := by
  refine ⟨?_, by decide, by decide⟩
  unfold _should_stop_objective
  rw [if_pos (by decide)]

/-- C7 (amended): a stop-check response whose lowercasing *contains* the
decline phrase `"can't answer"` — in particular one equal to the phrase
in any letter case — is interpreted as "continue" (`none`) and never
becomes an answer; any response not containing the phrase is interpreted
as the final answer and returned verbatim. -/
theorem should_stop_decline_phrase (res : String) :
    (py_lower res = "can\x27t answer" → _should_stop_objective res = none) ∧
    (¬ "can\x27t answer".toList <:+: (py_lower res).toList →
      _should_stop_objective res = some res) ∧
    (∀ a, _should_stop_objective res = some a →
      a = res ∧ ¬ "can\x27t answer".toList <:+: (py_lower res).toList) := by
  refine ⟨?_, ?_, ?_⟩
  · intro h
    unfold _should_stop_objective
    rw [h]
    exact if_pos (List.infix_refl _)
  · intro h
    unfold _should_stop_objective
    rw [if_neg h]
  · intro a ha
    unfold _should_stop_objective at ha
    by_cases h : "can\x27t answer".toList <:+: (py_lower res).toList
    · rw [if_pos h] at ha
      exact Option.noConfusion ha
    · rw [if_neg h] at ha
      exact ⟨(Option.some.injEq _ _ ▸ ha).symm, h⟩

/-- Witness for C7's amended theorem: the exact decline phrase in capital
letters is interpreted as "continue", and an unrelated answer text is
returned verbatim. -/
theorem should_stop_decline_phrase_witness :
    _should_stop_objective "CAN\x27T ANSWER" = none ∧
    _should_stop_objective "Paris." = some "Paris." :=
  ⟨(should_stop_decline_phrase "CAN\x27T ANSWER").1 (by decide),
    (should_stop_decline_phrase "Paris.").2.1 (by decide)⟩

/-! ## C6 — the knowledge-recording tool against state.py's data model -/

/-- C6: `_knowledge_tool` (think.py lines 345-354) executes
`objective.knowledge += "\n" + knowledge`, i.e. its postcondition is that
`knowledge` grows by a newline plus the supplied text while the rest of
the objective — in particular `knowledges` — is unchanged.  Against the
`ObjectiveState` that `src/app/models/state.py` declares, this
postcondition is unsatisfiable: `knowledge` is a read-only property fully
determined by `knowledges` (lines 56-66), so no objective with the same
`knowledges` can have the grown `knowledge` text.  (At runtime, pydantic
raises `AttributeError: property 'knowledge' of 'ObjectiveState' object
has no setter` on the assignment.) -/
theorem knowledge_tool_append_unsatisfiable
    (o o2 : StateModel.ObjectiveState) (k : String)
    (hsame : o2.knowledges = o.knowledges) :
    o2.knowledge ≠ o.knowledge ++ "\n" ++ k := by
  intro h
  have hk : o2.knowledge = o.knowledge := by
    unfold StateModel.ObjectiveState.knowledge
    rw [hsame]
  rw [hk] at h
  have hlen := congrArg String.length h
  rw [String.length_append, String.length_append] at hlen
  have hone : ("\n" : String).length = 1 := by decide
  omega

/-- Witness for C6's theorem at a concrete input: an unchanged objective
cannot satisfy the tool's postcondition for the recorded text
`"Paris is the capital of France"`. -/
theorem knowledge_tool_append_unsatisfiable_witness :
    sample_state_objective.knowledge ≠
      sample_state_objective.knowledge ++ "\n" ++
        "Paris is the capital of France" :=
  knowledge_tool_append_unsatisfiable sample_state_objective
    sample_state_objective "Paris is the capital of France" rfl

/-! ## C10 — the caller's history list is never mutated -/

lemma store_frame_step (s : Store) (v w : List Msg) (i : Nat)
    (hi : i < s.objs.length) :
    ((s.alloc v).1.put (s.alloc v).2 w).objs[i]? = s.objs[i]? := by
  show ((s.objs ++ [v]).set s.objs.length w)[i]? = s.objs[i]?
  rw [List.getElem?_set, if_neg (by omega), List.getElem?_append, if_pos hi]

lemma store_frame_step_length (s : Store) (v w : List Msg) :
    ((s.alloc v).1.put (s.alloc v).2 w).objs.length = s.objs.length + 1 := by
  show ((s.objs ++ [v]).set s.objs.length w).length = s.objs.length + 1
  rw [List.length_set, List.length_append]
  rfl

lemma store_put_frame (s : Store) (j : Nat) (w : List Msg) (i : Nat)
    (hij : ¬ j = i) :
    (s.put j w).objs[i]? = s.objs[i]? := by
  show (s.objs.set j w)[i]? = s.objs[i]?
  rw [List.getElem?_set, if_neg hij]

lemma store_put_length (s : Store) (j : Nat) (w : List Msg) :
    (s.put j w).objs.length = s.objs.length := by
  show (s.objs.set j w).length = s.objs.length
  rw [List.length_set]

lemma raw_completion_heap_frame_aux {T : Type} :
    ∀ (oracle : List ModelResponse) (store : Store) (eh : Nat) (json : Bool)
      (system : String) (tools : List Tool) (vc : String → Except String T)
      (prev : Option String) (n : Nat) (verr : Option String) (i : Nat),
      i < store.objs.length →
      (_raw_completion_heap oracle store eh json system tools vc prev n
        verr).store.objs[i]? = store.objs[i]? := by
  intro oracle
  induction oracle with
  | nil =>
    intro store eh json system tools vc prev n verr i hi
    simp only [_raw_completion_heap]
    exact store_frame_step store (store.get eh) _ i hi
  | cons r rest ih =>
    intro store eh json system tools vc prev n verr i hi
    have hlh : ¬ ((store.alloc (store.get eh)).2 = i) := by
      show ¬ (store.objs.length = i)
      omega
    simp only [_raw_completion_heap]
    split
    · -- no tool calls
      split
      · exact store_frame_step store (store.get eh) _ i hi
      · split
        · exact store_frame_step store (store.get eh) _ i hi
        · split
          · exact store_frame_step store (store.get eh) _ i hi
          · split
            · exact store_frame_step store (store.get eh) _ i hi
            · split
              · exact store_frame_step store (store.get eh) _ i hi
              · refine (ih _ _ _ _ _ _ _ _ _ i ?_).trans ?_
                · rw [store_frame_step_length]
                  omega
                · exact store_frame_step store (store.get eh) _ i hi
    · -- tool branch
      split
      · rw [store_put_frame _ _ _ _ hlh]
        exact store_frame_step store (store.get eh) _ i hi
      · refine (ih _ _ _ _ _ _ _ _ _ i ?_).trans ?_
        · rw [store_put_length, store_frame_step_length]
          omega
        · rw [store_put_frame _ _ _ _ hlh]
          exact store_frame_step store (store.get eh) _ i hi

/-- C10: a `_raw_completion` call — directly or through
`non_empty_completion` or `validated_completion` — never mutates any list
object that existed before the call; in particular the caller's
`existing_history` (at any live index, including the one passed in) holds
the same messages after the run as before, whether the run returns a
value or raises.  All appends target the private copy made at llm.py
line 220. -/
theorem existing_history_never_mutated {T : Type}
    (oracle : List ModelResponse) (store : Store) (eh : Nat) (json : Bool)
    (system schema : String) (tools : List Tool)
    (vc : String → Except String T) (prev : Option String) (n : Nat)
    (verr : Option String) (i : Nat) (hi : i < store.objs.length) :
    (_raw_completion_heap oracle store eh json system tools vc prev n
      verr).store.objs[i]? = store.objs[i]? ∧
    (non_empty_completion_heap oracle store eh system json
      tools).store.objs[i]? = store.objs[i]? ∧
    (validated_completion_heap oracle store eh vc schema system
      tools).store.objs[i]? = store.objs[i]? :=
  ⟨raw_completion_heap_frame_aux oracle store eh json system tools vc prev n
      verr i hi,
    raw_completion_heap_frame_aux oracle store eh json
      (non_empty_system system) tools non_empty_validate none 10 none i hi,
    raw_completion_heap_frame_aux oracle store eh true
      (validated_system system schema) tools vc none 10 none i hi⟩

/-- Witness for C10 at a concrete input: a one-entry store holding the
caller's history survives a two-response run (validation failure then
success) unchanged. -/
theorem existing_history_never_mutated_witness :
    (_raw_completion_heap [resp_text "c1", resp_text "ok"]
        ⟨[[Msg.user "Q"]]⟩ 0 false "S" [] vc_sample none 10
        none).store.objs[0]? = (Store.mk [[Msg.user "Q"]]).objs[0]? ∧
    (non_empty_completion_heap [resp_text "c1", resp_text "ok"]
        ⟨[[Msg.user "Q"]]⟩ 0 "S" false []).store.objs[0]? =
      (Store.mk [[Msg.user "Q"]]).objs[0]? ∧
    (validated_completion_heap [resp_text "c1", resp_text "ok"]
        ⟨[[Msg.user "Q"]]⟩ 0 vc_sample "SC" "S" []).store.objs[0]? =
      (Store.mk [[Msg.user "Q"]]).objs[0]? :=
  existing_history_never_mutated [resp_text "c1", resp_text "ok"]
    ⟨[[Msg.user "Q"]]⟩ 0 false "S" "SC" [] vc_sample none 10 none 0
    (by decide)

/-! ## C1 — bounded validation retries -/

lemma raw_fail_nontool_bound {T : Type} (vc : String → Except String T)
    (hfail : ∀ s, ∃ e, vc s = Except.error e) :
    ∀ (oracle : List ModelResponse) (existing : List Msg) (json : Bool)
      (system : String) (tools : List Tool) (prev : Option String) (n : Nat)
      (verr : Option String),
      (_raw_completion oracle existing json system tools vc prev n
        verr).consumed.countP (fun r => r.message.tool_calls.isEmpty) ≤ n + 1 := by
  intro oracle
  induction oracle with
  | nil =>
    intro existing json system tools prev n verr
    simp [_raw_completion]
  | cons r rest ih =>
    intro existing json system tools prev n verr
    by_cases htc : r.message.tool_calls.isEmpty
    · by_cases hfr : r.finish_reason = "stop"
      · rcases hcon : r.message.content with _ | content
        · simp [_raw_completion, htc, hfr, hcon, List.countP_cons]
        · by_cases hce : content = ""
          · simp [_raw_completion, htc, hfr, hcon, hce, List.countP_cons]
          · rcases hv : vc content with e | t
            · by_cases hn : n = 0
              · simp [_raw_completion, htc, hfr, hcon, hce, hv, hn,
                  List.countP_cons]
              · have h2 := ih (add_validation_context existing prev verr) json
                  system tools (some content) (n - 1) (some e)
                simp [_raw_completion, htc, hfr, hcon, hce, hv, hn,
                  List.countP_cons]
                omega
            · rcases hfail content with ⟨e0, he0⟩
              rw [he0] at hv
              exact Except.noConfusion hv
      · simp [_raw_completion, htc, hfr, List.countP_cons]
    · rcases hft : first_tool_error (run_tools tools r.message.tool_calls)
        with _ | m
      · have h2 := ih (add_validation_context existing prev verr ++
            Msg.assistantToolCall r.message ::
              ok_tool_msgs (run_tools tools r.message.tool_calls)) json
          system [] prev n verr
        simp [_raw_completion, htc, hft, List.countP_cons]
        omega
      · simp [_raw_completion, htc, hft, List.countP_cons]

lemma raw_sent_eq_consumed {T : Type} (vc : String → Except String T) :
    ∀ (oracle : List ModelResponse) (existing : List Msg) (json : Bool)
      (system : String) (tools : List Tool) (prev : Option String) (n : Nat)
      (verr : Option String),
      (_raw_completion oracle existing json system tools vc prev n
        verr).sent.length =
      (_raw_completion oracle existing json system tools vc prev n
        verr).consumed.length := by
  intro oracle
  induction oracle with
  | nil =>
    intro existing json system tools prev n verr
    simp [_raw_completion]
  | cons r rest ih =>
    intro existing json system tools prev n verr
    by_cases htc : r.message.tool_calls.isEmpty
    · by_cases hfr : r.finish_reason = "stop"
      · rcases hcon : r.message.content with _ | content
        · simp [_raw_completion, htc, hfr, hcon]
        · by_cases hce : content = ""
          · simp [_raw_completion, htc, hfr, hcon, hce]
          · rcases hv : vc content with e | t
            · by_cases hn : n = 0
              · simp [_raw_completion, htc, hfr, hcon, hce, hv, hn]
              · have h2 := ih (add_validation_context existing prev verr) json
                  system tools (some content) (n - 1) (some e)
                simp [_raw_completion, htc, hfr, hcon, hce, hv, hn]
                omega
            · simp [_raw_completion, htc, hfr, hcon, hce, hv]
      · simp [_raw_completion, htc, hfr]
    · rcases hft : first_tool_error (run_tools tools r.message.tool_calls)
        with _ | m
      · have h2 := ih (add_validation_context existing prev verr ++
            Msg.assistantToolCall r.message ::
              ok_tool_msgs (run_tools tools r.message.tool_calls)) json
          system [] prev n verr
        simp [_raw_completion, htc, hft]
        omega
      · simp [_raw_completion, htc, hft]

lemma raw_fail_no_value {T : Type} (vc : String → Except String T)
    (hfail : ∀ s, ∃ e, vc s = Except.error e) :
    ∀ (oracle : List ModelResponse) (existing : List Msg) (json : Bool)
      (system : String) (tools : List Tool) (prev : Option String) (n : Nat)
      (verr : Option String) (t : T),
      (_raw_completion oracle existing json system tools vc prev n
        verr).outcome ≠ RawOutcome.value t := by
  intro oracle
  induction oracle with
  | nil =>
    intro existing json system tools prev n verr t
    simp [_raw_completion]
  | cons r rest ih =>
    intro existing json system tools prev n verr t
    by_cases htc : r.message.tool_calls.isEmpty
    · by_cases hfr : r.finish_reason = "stop"
      · rcases hcon : r.message.content with _ | content
        · simp [_raw_completion, htc, hfr, hcon]
        · by_cases hce : content = ""
          · simp [_raw_completion, htc, hfr, hcon, hce]
          · rcases hv : vc content with e | t2
            · by_cases hn : n = 0
              · simp [_raw_completion, htc, hfr, hcon, hce, hv, hn]
              · have h2 := ih (add_validation_context existing prev verr) json
                  system tools (some content) (n - 1) (some e) t
                simp [_raw_completion, htc, hfr, hcon, hce, hv, hn]
                exact h2
            · rcases hfail content with ⟨e0, he0⟩
              rw [he0] at hv
              exact Except.noConfusion hv
      · simp [_raw_completion, htc, hfr]
    · rcases hft : first_tool_error (run_tools tools r.message.tool_calls)
        with _ | m
      · have h2 := ih (add_validation_context existing prev verr ++
            Msg.assistantToolCall r.message ::
              ok_tool_msgs (run_tools tools r.message.tool_calls)) json
          system [] prev n verr t
        simp [_raw_completion, htc, hft]
        exact h2
      · simp [_raw_completion, htc, hft]

lemma raw_consumed_mem {T : Type} (vc : String → Except String T) :
    ∀ (oracle : List ModelResponse) (existing : List Msg) (json : Bool)
      (system : String) (tools : List Tool) (prev : Option String) (n : Nat)
      (verr : Option String) (x : ModelResponse),
      x ∈ (_raw_completion oracle existing json system tools vc prev n
        verr).consumed → x ∈ oracle := by
  intro oracle
  induction oracle with
  | nil =>
    intro existing json system tools prev n verr x
    simp [_raw_completion]
  | cons r rest ih =>
    intro existing json system tools prev n verr x
    by_cases htc : r.message.tool_calls.isEmpty
    · by_cases hfr : r.finish_reason = "stop"
      · rcases hcon : r.message.content with _ | content
        · simp [_raw_completion, htc, hfr, hcon]
          intro h
          simp [h]
        · by_cases hce : content = ""
          · simp [_raw_completion, htc, hfr, hcon, hce]
            intro h
            simp [h]
          · rcases hv : vc content with e | t
            · by_cases hn : n = 0
              · simp [_raw_completion, htc, hfr, hcon, hce, hv, hn]
                intro h
                simp [h]
              · have h2 := ih (add_validation_context existing prev verr) json
                  system tools (some content) (n - 1) (some e) x
                simp [_raw_completion, htc, hfr, hcon, hce, hv, hn]
                intro h
                rcases h with h | h
                · simp [h]
                · exact Or.inr (h2 h)
            · simp [_raw_completion, htc, hfr, hcon, hce, hv]
              intro h
              simp [h]
      · simp [_raw_completion, htc, hfr]
        intro h
        simp [h]
    · rcases hft : first_tool_error (run_tools tools r.message.tool_calls)
        with _ | m
      · have h2 := ih (add_validation_context existing prev verr ++
            Msg.assistantToolCall r.message ::
              ok_tool_msgs (run_tools tools r.message.tool_calls)) json
          system [] prev n verr x
        simp [_raw_completion, htc, hft]
        intro h
        rcases h with h | h
        · simp [h]
        · exact Or.inr (h2 h)
      · simp [_raw_completion, htc, hft]
        intro h
        simp [h]

lemma raw_fail_exhaustion {T : Type} (vc : String → Except String T)
    (errf : String → String) (hfail : ∀ s, vc s = Except.error (errf s)) :
    ∀ (n : Nat) (oracle : List ModelResponse) (existing : List Msg)
      (json : Bool) (system : String) (tools : List Tool)
      (prev : Option String) (verr : Option String),
      (∀ r ∈ oracle, r.finish_reason = "stop" ∧ r.message.tool_calls = [] ∧
        ∃ c, r.message.content = some c ∧ c ≠ "") →
      ∀ r0, oracle[n]? = some r0 →
      ∃ c, r0.message.content = some c ∧
        (_raw_completion oracle existing json system tools vc prev n
          verr).outcome =
          RawOutcome.completionError
            ("Validation failed and no retries left: " ++ errf c) ∧
        (_raw_completion oracle existing json system tools vc prev n
          verr).consumed.length = n + 1 := by
  intro n
  induction n with
  | zero =>
    intro oracle existing json system tools prev verr hwf r0 hr0
    rcases oracle with _ | ⟨r, rest⟩
    · exact Option.noConfusion hr0
    · rw [List.getElem?_cons_zero] at hr0
      have hr : r = r0 := Option.some.injEq _ _ ▸ hr0
      subst hr
      rcases hwf r (List.mem_cons_self r rest) with ⟨hfr, htc, c, hcon, hce⟩
      have htce : r.message.tool_calls.isEmpty = true := by
        rw [List.isEmpty_iff, htc]
      refine ⟨c, hcon, ?_, ?_⟩
      · simp [_raw_completion, htce, hfr, hcon, hce, hfail c]
      · simp [_raw_completion, htce, hfr, hcon, hce, hfail c]
  | succ m ih =>
    intro oracle existing json system tools prev verr hwf r0 hr0
    rcases oracle with _ | ⟨r, rest⟩
    · exact Option.noConfusion hr0
    · rw [List.getElem?_cons_succ] at hr0
      rcases hwf r (List.mem_cons_self r rest) with ⟨hfr, htc, c, hcon, hce⟩
      have htce : r.message.tool_calls.isEmpty = true := by
        rw [List.isEmpty_iff, htc]
      have hwf2 : ∀ x ∈ rest, x.finish_reason = "stop" ∧
          x.message.tool_calls = [] ∧
          ∃ c2, x.message.content = some c2 ∧ c2 ≠ "" :=
        fun x hx => hwf x (List.mem_cons_of_mem r hx)
      rcases ih rest (add_validation_context existing prev verr) json system
          tools (some c) (some (errf c)) hwf2 r0 hr0 with ⟨c2, hcon2, hout, hlen⟩
      refine ⟨c2, hcon2, ?_, ?_⟩
      · simp only [_raw_completion, htce, if_true, hfr, hcon, hce, hfail c]
        simp [hfr, hce]
        exact hout
      · simp only [_raw_completion, htce, if_true, hfr, hcon, hce, hfail c]
        simp [hfr, hce]
        exact hlen

/-- C1: when the validation callback raises a `ValidationException` on
every response, a `_raw_completion` call entered with
`_retries_remaining = n` performs at most `n + 1` model invocations not
counting tool round-trips (an invocation whose response carries tool
calls never reaches validation), emits one request per invocation, never
returns a value, and — when the oracle supplies enough well-formed
plain responses — performs exactly `n + 1` invocations and then raises
`CompletionException` carrying the last validation error.  The counter
starts at 10: a `validated_completion` call performs at most `10 + 1`
invocations when no response requests tools. -/
theorem raw_completion_retry_exhaustion {T : Type}
    (oracle : List ModelResponse) (existing : List Msg) (json : Bool)
    (system schema : String) (tools : List Tool)
    (vc : String → Except String T) (errf : String → String)
    (prev : Option String) (n : Nat) (verr : Option String)
    (hfail : ∀ s, vc s = Except.error (errf s)) :
    (_raw_completion oracle existing json system tools vc prev n
      verr).consumed.countP (fun r => r.message.tool_calls.isEmpty) ≤ n + 1 ∧
    (_raw_completion oracle existing json system tools vc prev n
      verr).sent.length =
      (_raw_completion oracle existing json system tools vc prev n
        verr).consumed.length ∧
    (∀ t, (_raw_completion oracle existing json system tools vc prev n
      verr).outcome ≠ RawOutcome.value t) ∧
    ((∀ r ∈ oracle, r.finish_reason = "stop" ∧ r.message.tool_calls = [] ∧
        ∃ c, r.message.content = some c ∧ c ≠ "") →
      ∀ r0, oracle[n]? = some r0 →
      ∃ c, r0.message.content = some c ∧
        (_raw_completion oracle existing json system tools vc prev n
          verr).outcome =
          RawOutcome.completionError
            ("Validation failed and no retries left: " ++ errf c) ∧
        (_raw_completion oracle existing json system tools vc prev n
          verr).consumed.length = n + 1) ∧
    ((∀ r ∈ oracle, r.message.tool_calls = []) →
      (validated_completion oracle vc schema system existing
        tools).consumed.length ≤ 10 + 1) := by
  have hfail2 : ∀ s, ∃ e, vc s = Except.error e := fun s => ⟨errf s, hfail s⟩
  refine ⟨raw_fail_nontool_bound vc hfail2 oracle existing json system tools
      prev n verr,
    raw_sent_eq_consumed vc oracle existing json system tools prev n verr,
    fun t => raw_fail_no_value vc hfail2 oracle existing json system tools
      prev n verr t,
    fun hwf r0 hr0 => raw_fail_exhaustion vc errf hfail n oracle existing json
      system tools prev verr hwf r0 hr0,
    fun htools => ?_⟩
  have hb := raw_fail_nontool_bound vc hfail2 oracle existing true
    (validated_system system schema) tools none 10 none
  have hall : ∀ x ∈ (_raw_completion oracle existing true
      (validated_system system schema) tools vc none 10 none).consumed,
      (fun r => r.message.tool_calls.isEmpty) x = true := by
    intro x hx
    have hxo := raw_consumed_mem vc oracle existing true
      (validated_system system schema) tools none 10 none x hx
    exact List.isEmpty_iff.mpr (htools x hxo)
  have hc := List.countP_eq_length.mpr hall
  show (_raw_completion oracle existing true
    (validated_system system schema) tools vc none 10 none).consumed.length ≤
    10 + 1
  rw [← hc]
  exact hb

/-- Witness for C1 at a concrete input: three well-formed responses, an
always-failing callback, and `_retries_remaining = 2` — the run performs
exactly 3 invocations and raises the `CompletionException` built from the
last validation error. -/
theorem raw_completion_retry_exhaustion_witness :
    (_raw_completion oracle_three [] false "S" [] vc_fail none 2
      none).consumed.countP (fun r => r.message.tool_calls.isEmpty) ≤ 2 + 1 ∧
    (_raw_completion oracle_three [] false "S" [] vc_fail none 2
      none).outcome ≠ RawOutcome.value "x" ∧
    (∃ c, (resp_text "c").message.content = some c ∧
      (_raw_completion oracle_three [] false "S" [] vc_fail none 2
        none).outcome =
        RawOutcome.completionError
          ("Validation failed and no retries left: " ++ errf_fail c) ∧
      (_raw_completion oracle_three [] false "S" [] vc_fail none 2
        none).consumed.length = 2 + 1) ∧
    (validated_completion oracle_three vc_fail "SC" "S" []
      []).consumed.length ≤ 10 + 1 := by
  have h := raw_completion_retry_exhaustion oracle_three [] false "S" "SC" []
    vc_fail errf_fail none 2 none (fun s => rfl)
  refine ⟨h.1, h.2.2.1 "x", ?_, h.2.2.2.2 ?_⟩
  · refine h.2.2.2.1 ?_ (resp_text "c") (by decide)
    intro r hr
    fin_cases hr <;> exact ⟨rfl, rfl, _, rfl, by decide⟩
  · intro r hr
    fin_cases hr <;> rfl

/-! ## C8 and C9 — shape of the requests sent to the model -/

lemma raw_sent_head {T : Type} (oracle : List ModelResponse)
    (existing : List Msg) (json : Bool) (system : String) (tools : List Tool)
    (vc : String → Except String T) (prev : Option String) (n : Nat)
    (verr : Option String) (h : oracle ≠ []) :
    (_raw_completion oracle existing json system tools vc prev n
      verr).sent[0]? =
      some ⟨Msg.system system :: add_validation_context existing prev verr,
        tools.map Tool.name⟩ := by
  rcases oracle with _ | ⟨r, rest⟩
  · exact absurd rfl h
  · by_cases htc : r.message.tool_calls.isEmpty
    · by_cases hfr : r.finish_reason = "stop"
      · rcases hcon : r.message.content with _ | content
        · simp [_raw_completion, htc, hfr, hcon]
        · by_cases hce : content = ""
          · simp [_raw_completion, htc, hfr, hcon, hce]
          · rcases hv : vc content with e | t
            · by_cases hn : n = 0
              · simp [_raw_completion, htc, hfr, hcon, hce, hv, hn]
              · simp [_raw_completion, htc, hfr, hcon, hce, hv, hn]
            · simp [_raw_completion, htc, hfr, hcon, hce, hv]
      · simp [_raw_completion, htc, hfr]
    · rcases hft : first_tool_error (run_tools tools r.message.tool_calls)
        with _ | m
      · simp [_raw_completion, htc, hft]
      · simp [_raw_completion, htc, hft]

/-- C8 (amended): when a response carries tool calls (and no tool raises),
the follow-up recursive `_raw_completion` call is made with the extended
history — the assistant's tool-call message first, then the tool results
in the order of the originating tool-call list — and with an empty tools
list; the retry/validation-error context (`_previous_result`,
`_validation_error`) is *passed through unchanged* rather than discarded,
as witnessed by the follow-up request re-applying the validation-error
context on top of the already-extended history. -/
theorem tool_branch_recursion_shape {T : Type} (r : ModelResponse)
    (rest : List ModelResponse) (existing : List Msg) (json : Bool)
    (system : String) (tools : List Tool) (vc : String → Except String T)
    (prev : Option String) (n : Nat) (verr : Option String)
    (htc : ¬ r.message.tool_calls.isEmpty = true)
    (hok : first_tool_error (run_tools tools r.message.tool_calls) = none)
    (hrest : rest ≠ []) :
    (_raw_completion (r :: rest) existing json system tools vc prev n
      verr).sent[0]? =
      some ⟨Msg.system system :: add_validation_context existing prev verr,
        tools.map Tool.name⟩ ∧
    (_raw_completion (r :: rest) existing json system tools vc prev n
      verr).sent[1]? =
      some ⟨Msg.system system ::
        add_validation_context
          (add_validation_context existing prev verr ++
            Msg.assistantToolCall r.message ::
              ok_tool_msgs (run_tools tools r.message.tool_calls))
          prev verr,
        []⟩ := by
  constructor
  · exact raw_sent_head (r :: rest) existing json system tools vc prev n verr
      (List.cons_ne_nil r rest)
  · have hh := raw_sent_head rest
      (add_validation_context existing prev verr ++
        Msg.assistantToolCall r.message ::
          ok_tool_msgs (run_tools tools r.message.tool_calls)) json system []
      vc prev n verr hrest
    simp only [_raw_completion, htc, hok, if_false, Bool.false_eq_true]
    simp [htc, hok]
    simpa using hh

/-- C8 counterexample: in a concrete run (validation failure, then a
tool-call response, then a final response) the third request — the
follow-up after tool execution — still carries the validation-error
context: the restating user message appears twice (once from the
extended history, once re-appended because `_validation_error` was passed
through), whereas the claim's "context discarded" would leave it exactly
once. -/
theorem tool_branch_context_not_discarded :
    (run_tool_after_retry.sent.getD 2 ⟨[], []⟩).messages.count
        (Msg.user "A validation error occurred, please retry: E1") = 2 ∧
    (run_tool_after_retry.sent.getD 2 ⟨[], []⟩).toolNames = [] ∧
    (run_tool_after_retry.sent.getD 2 ⟨[], []⟩).messages =
      [Msg.system "S", Msg.user "Q", Msg.assistant "c1",
        Msg.user "A validation error occurred, please retry: E1",
        Msg.assistantToolCall ⟨none, [⟨"1", ⟨some "t", ""⟩⟩]⟩,
        Msg.tool "tool says hi" "1", Msg.assistant "c1",
        Msg.user "A validation error occurred, please retry: E1"] := by
  refine ⟨by decide, by decide, by decide⟩

/-- Witness for C8's amended theorem at a concrete input: a tool-call
response followed by one more response yields a follow-up request with
the extended history and no tools offered. -/
theorem tool_branch_recursion_shape_witness :
    (_raw_completion [resp_tool, resp_text "ok"] [Msg.user "Q"] false "S"
      [sample_tool] vc_sample none 10 none).sent[0]? =
      some ⟨Msg.system "S" ::
        add_validation_context [Msg.user "Q"] none none,
        [sample_tool].map Tool.name⟩ ∧
    (_raw_completion [resp_tool, resp_text "ok"] [Msg.user "Q"] false "S"
      [sample_tool] vc_sample none 10 none).sent[1]? =
      some ⟨Msg.system "S" ::
        add_validation_context
          (add_validation_context [Msg.user "Q"] none none ++
            Msg.assistantToolCall resp_tool.message ::
              ok_tool_msgs (run_tools [sample_tool]
                resp_tool.message.tool_calls))
          none none,
        []⟩ :=
  tool_branch_recursion_shape resp_tool [resp_text "ok"] [Msg.user "Q"] false
    "S" [sample_tool] vc_sample none 10 none (by decide) (by decide)
    (by decide)

/-- C9 (amended): after a validation failure with error text `e` on
content `c`, the retry's outgoing message list is the *unchanged* system
message (the caller's prompt verbatim), followed by the conversation
history, followed by an assistant message carrying the previous bad
response and a user message restating the validation error.  The prior
response and error text are part of the retry's outgoing message list —
as trailing history messages, not as part of the system prompt. -/
theorem retry_request_shape {T : Type} (r : ModelResponse)
    (rest : List ModelResponse) (existing : List Msg) (json : Bool)
    (system : String) (tools : List Tool) (vc : String → Except String T)
    (prev : Option String) (n : Nat) (verr : Option String) (c e : String)
    (htc : r.message.tool_calls.isEmpty = true)
    (hfr : r.finish_reason = "stop") (hcon : r.message.content = some c)
    (hce : ¬ c = "") (hv : vc c = Except.error e) (hee : ¬ e = "")
    (hn : ¬ n = 0) (hrest : rest ≠ []) :
    (_raw_completion (r :: rest) existing json system tools vc prev n
      verr).sent[1]? =
      some ⟨Msg.system system ::
        (add_validation_context existing prev verr ++
          [Msg.assistant c,
            Msg.user ("A validation error occurred, please retry: " ++ e)]),
        tools.map Tool.name⟩ := by
  have hh := raw_sent_head rest (add_validation_context existing prev verr)
    json system tools vc (some c) (n - 1) (some e) hrest
  simp only [_raw_completion, htc, hfr, hcon, hce, hv, hn]
  simp [hfr, hce, hn]
  rw [hh]
  simp [add_validation_context, hce, hee]

/-- C9 counterexample: in a concrete run whose first response `"c1"`
fails validation with error `"E1"`, the retry request is *not* "one
augmented system message followed by the history": its system message is
the caller's prompt `"S"` verbatim — it does not contain the error text
`"E1"` — and the prior response and error are appended after the history
as assistant/user messages. -/
theorem retry_prompt_counterexample :
    (run_plain_retry.sent.getD 1 ⟨[], []⟩).messages =
      [Msg.system "S", Msg.user "Q", Msg.assistant "c1",
        Msg.user "A validation error occurred, please retry: E1"] ∧
    (run_plain_retry.sent.getD 1 ⟨[], []⟩).messages.head? =
      some (Msg.system "S") ∧
    ¬ "E1".toList <:+: "S".toList := by
  refine ⟨by decide, by decide, by decide⟩

/-- Witness for C9's amended theorem at a concrete input. -/
theorem retry_request_shape_witness :
    (_raw_completion [resp_text "c1", resp_text "ok"] [Msg.user "Q"] false
      "S" [] vc_sample none 10 none).sent[1]? =
      some ⟨Msg.system "S" ::
        (add_validation_context [Msg.user "Q"] none none ++
          [Msg.assistant "c1",
            Msg.user ("A validation error occurred, please retry: " ++ "E1")]),
        ([] : List Tool).map Tool.name⟩ :=
  retry_request_shape (resp_text "c1") [resp_text "ok"] [Msg.user "Q"] false
    "S" [] vc_sample none 10 none "c1" "E1" (by decide) (by decide)
    (by decide) (by decide) (by decide) (by decide) (by decide) (by decide)

/-! ## C3 and C4 — the objective state machine -/

lemma stop_check_min (stops : Nat → Except String String) (i : Nat)
    (o : ObjectiveState) (x : Except String (Option String))
    (h : stop_check stops i o = some x) : MIN_STEPS ≤ o.steps.length := by
  by_cases hm : MIN_STEPS ≤ o.steps.length
  · exact hm
  · unfold stop_check at h
    rw [if_neg hm] at h
    exact Option.noConfusion h

lemma stop_check_ok (stops : Nat → Except String String) (i : Nat)
    (o : ObjectiveState) (d : Option String)
    (h : stop_check stops i o = some (Except.ok d)) :
    ∃ res, stops i = Except.ok res ∧ _should_stop_objective res = d := by
  unfold stop_check at h
  by_cases hm : MIN_STEPS ≤ o.steps.length
  · rw [if_pos hm] at h
    rcases hs : stops i with m | res
    · rw [hs] at h
      simp at h
    · rw [hs] at h
      simp at h
      exact ⟨res, rfl, h⟩
  · rw [if_neg hm] at h
    exact Option.noConfusion h

lemma should_stop_some (res a : String)
    (h : _should_stop_objective res = some a) : a = res := by
  unfold _should_stop_objective at h
  by_cases hi : "can\x27t answer".toList <:+: (py_lower res).toList
  · rw [if_pos hi] at h
    exact Option.noConfusion h
  · rw [if_neg hi] at h
    exact (Option.some.injEq _ _ ▸ h).symm

lemma run_loop_stop_min (stops : Nat → Except String String)
    (step_oracle : Nat → Except String StepState) :
    ∀ (fuel sIdx stIdx : Nat) (o : ObjectiveState),
      ∀ ev ∈ (_run_objective_loop stops step_oracle fuel sIdx stIdx o).events,
        ∀ k d, ev = RunEvent.stopCheck k d → MIN_STEPS ≤ k := by
  intro fuel
  induction fuel with
  | zero =>
    intro sIdx stIdx o ev hev k d hevd
    simp [_run_objective_loop] at hev
  | succ fuel ih =>
    intro sIdx stIdx o ev hev k d hevd
    by_cases hst : o.status = ObjectiveStatus.in_progress
    · rcases hsc : stop_check stops sIdx o with _ | exc
      · -- no check performed this iteration
        by_cases hmax : MAX_STEPS ≤ o.steps.length
        · simp [_run_objective_loop, hst, hsc, hmax] at hev
        · rcases hstep : step_oracle stIdx with m | st
          · simp [_run_objective_loop, hst, hsc, hmax, hstep] at hev
            rw [hev] at hevd
            exact RunEvent.noConfusion hevd
          · simp [_run_objective_loop, hst, hsc, hmax, hstep] at hev
            rcases hev with hev | hev
            · rw [hev] at hevd
              exact RunEvent.noConfusion hevd
            · exact ih _ (stIdx + 1) _ ev hev k d hevd
      · rcases exc with m | dec
        · simp [_run_objective_loop, hst, hsc] at hev
          rw [hev] at hevd
          injection hevd with h1 h2
          rw [← h1]
          exact stop_check_min stops sIdx o _ hsc
        · rcases dec with _ | ans
          · -- declined: continue
            by_cases hmax : MAX_STEPS ≤ o.steps.length
            · simp [_run_objective_loop, hst, hsc, hmax] at hev
              rw [hev] at hevd
              injection hevd with h1 h2
              rw [← h1]
              exact stop_check_min stops sIdx o _ hsc
            · rcases hstep : step_oracle stIdx with m | st
              · simp [_run_objective_loop, hst, hsc, hmax, hstep] at hev
                rcases hev with hev | hev
                · rw [hev] at hevd
                  injection hevd with h1 h2
                  rw [← h1]
                  exact stop_check_min stops sIdx o _ hsc
                · rw [hev] at hevd
                  exact RunEvent.noConfusion hevd
              · simp [_run_objective_loop, hst, hsc, hmax, hstep] at hev
                rcases hev with hev | hev | hev
                · rw [hev] at hevd
                  injection hevd with h1 h2
                  rw [← h1]
                  exact stop_check_min stops sIdx o _ hsc
                · rw [hev] at hevd
                  exact RunEvent.noConfusion hevd
                · exact ih _ (stIdx + 1) _ ev hev k d hevd
          · simp [_run_objective_loop, hst, hsc] at hev
            rw [hev] at hevd
            injection hevd with h1 h2
            rw [← h1]
            exact stop_check_min stops sIdx o _ hsc
    · simp [_run_objective_loop, hst] at hev

lemma stop_check_error (stops : Nat → Except String String) (i : Nat)
    (o : ObjectiveState) (m : String)
    (h : stop_check stops i o = some (Except.error m)) :
    stops i = Except.error m := by
  unfold stop_check at h
  by_cases hm : MIN_STEPS ≤ o.steps.length
  · rw [if_pos hm] at h
    rcases hs : stops i with m2 | res
    · rw [hs] at h
      simp at h
      rw [h]
    · rw [hs] at h
      simp at h
  · rw [if_neg hm] at h
    exact Option.noConfusion h

lemma run_loop_steps (stops : Nat → Except String String)
    (step_oracle : Nat → Except String StepState) :
    ∀ (fuel sIdx stIdx : Nat) (o : ObjectiveState),
      (o.steps.length ≤ MAX_STEPS →
        (_run_objective_loop stops step_oracle fuel sIdx stIdx
          o).objective.steps.length ≤ MAX_STEPS) ∧
      (o.status = ObjectiveStatus.in_progress → o.steps.length ≤ MAX_STEPS →
        (_run_objective_loop stops step_oracle fuel sIdx stIdx
          o).objective.status = ObjectiveStatus.failed →
        (_run_objective_loop stops step_oracle fuel sIdx stIdx
          o).objective.steps.length = MAX_STEPS) := by
  intro fuel
  induction fuel with
  | zero =>
    intro sIdx stIdx o
    constructor
    · intro h
      simpa [_run_objective_loop] using h
    · intro h1 h2 h3
      simp [_run_objective_loop] at h3
      rw [h1] at h3
      exact ObjectiveStatus.noConfusion h3
  | succ fuel ih =>
    intro sIdx stIdx o
    by_cases hst : o.status = ObjectiveStatus.in_progress
    · rcases hsc : stop_check stops sIdx o with _ | exc
      · by_cases hmax : MAX_STEPS ≤ o.steps.length
        · constructor
          · intro h
            simpa [_run_objective_loop, hst, hsc, hmax] using h
          · intro h1 h2 h3
            simp [_run_objective_loop, hst, hsc, hmax]
            omega
        · rcases hstep : step_oracle stIdx with m | st
          · constructor
            · intro h
              simpa [_run_objective_loop, hst, hsc, hmax, hstep] using h
            · intro h1 h2 h3
              simp [_run_objective_loop, hst, hsc, hmax, hstep] at h3
          · constructor
            · intro h
              simp only [_run_objective_loop, hst, hsc, hmax, hstep]
              simp [hst, hsc, hmax, hstep]
              exact (ih _ _ _).1 (by simp; omega)
            · intro h1 h2 h3
              simp only [_run_objective_loop, hst, hsc, hmax, hstep] at h3 ⊢
              simp [hst, hsc, hmax, hstep] at h3 ⊢
              exact (ih _ _ _).2 (by simp) (by simp; omega) h3
      · rcases exc with m | dec
        · constructor
          · intro h
            simpa [_run_objective_loop, hst, hsc] using h
          · intro h1 h2 h3
            simp [_run_objective_loop, hst, hsc] at h3
        · rcases dec with _ | ans
          · by_cases hmax : MAX_STEPS ≤ o.steps.length
            · constructor
              · intro h
                simpa [_run_objective_loop, hst, hsc, hmax] using h
              · intro h1 h2 h3
                simp [_run_objective_loop, hst, hsc, hmax]
                omega
            · rcases hstep : step_oracle stIdx with m | st
              · constructor
                · intro h
                  simpa [_run_objective_loop, hst, hsc, hmax, hstep] using h
                · intro h1 h2 h3
                  simp [_run_objective_loop, hst, hsc, hmax, hstep] at h3
              · constructor
                · intro h
                  simp only [_run_objective_loop, hst, hsc, hmax, hstep]
                  simp [hst, hsc, hmax, hstep]
                  exact (ih _ _ _).1 (by simp; omega)
                · intro h1 h2 h3
                  simp only [_run_objective_loop, hst, hsc, hmax, hstep] at h3 ⊢
                  simp [hst, hsc, hmax, hstep] at h3 ⊢
                  exact (ih _ _ _).2 (by simp) (by simp; omega) h3
          · constructor
            · intro h
              simpa [_run_objective_loop, hst, hsc] using h
            · intro h1 h2 h3
              simp [_run_objective_loop, hst, hsc] at h3
    · constructor
      · intro h
        simpa [_run_objective_loop, hst] using h
      · intro h1 h2 h3
        exact absurd h1 hst

lemma run_loop_trace (stops : Nat → Except String String)
    (step_oracle : Nat → Except String StepState) :
    ∀ (fuel sIdx stIdx : Nat) (o : ObjectiveState),
      (o.answer = none →
        ∀ s ∈ (_run_objective_loop stops step_oracle fuel sIdx stIdx o).trace,
          ((s.answer ≠ none) ↔ s.status = ObjectiveStatus.completed)) ∧
      (∀ i, i + 1 <
          (_run_objective_loop stops step_oracle fuel sIdx stIdx
            o).trace.length →
        ∀ s, (_run_objective_loop stops step_oracle fuel sIdx stIdx
            o).trace[i]? = some s →
          s.status = ObjectiveStatus.in_progress) ∧
      (((_run_objective_loop stops step_oracle fuel sIdx stIdx o).trace = [] ∧
          (_run_objective_loop stops step_oracle fuel sIdx stIdx
            o).objective = o) ∨
        (_run_objective_loop stops step_oracle fuel sIdx stIdx
          o).trace.getLast? =
          some (_run_objective_loop stops step_oracle fuel sIdx stIdx
            o).objective) := by
  intro fuel
  induction fuel with
  | zero =>
    intro sIdx stIdx o
    refine ⟨?_, ?_, ?_⟩
    · intro hans s hs
      simp [_run_objective_loop] at hs
    · intro i hi s hsi
      simp [_run_objective_loop] at hi
    · simp [_run_objective_loop]
  | succ fuel ih =>
    intro sIdx stIdx o
    by_cases hst : o.status = ObjectiveStatus.in_progress
    · rcases hsc : stop_check stops sIdx o with _ | exc
      · by_cases hmax : MAX_STEPS ≤ o.steps.length
        · refine ⟨?_, ?_, ?_⟩
          · intro hans s hs
            simp [_run_objective_loop, hst, hsc, hmax] at hs
            simp [hs, hans]
          · intro i hi s hsi
            simp [_run_objective_loop, hst, hsc, hmax] at hi
          · simp [_run_objective_loop, hst, hsc, hmax]
        · rcases hstep : step_oracle stIdx with m | st
          · refine ⟨?_, ?_, ?_⟩
            · intro hans s hs
              simp [_run_objective_loop, hst, hsc, hmax, hstep] at hs
              simp [hs, hans, hst]
            · intro i hi s hsi
              simp [_run_objective_loop, hst, hsc, hmax, hstep] at hi
            · simp [_run_objective_loop, hst, hsc, hmax, hstep]
          · refine ⟨?_, ?_, ?_⟩
            · intro hans s hs
              simp only [_run_objective_loop, hst, hsc, hmax, hstep] at hs
              simp [hst, hsc, hmax, hstep] at hs
              rcases hs with hs | hs
              · simp [hs, hans, hst]
              · exact (ih _ _ _).1 (by simp [hans]) s hs
            · intro i hi s hsi
              simp only [_run_objective_loop, hst, hsc, hmax, hstep] at hi hsi
              simp [hst, hsc, hmax, hstep] at hi hsi
              rcases i with _ | j
              · rw [List.getElem?_cons_zero] at hsi
                injection hsi with h
                rw [← h]
              · rw [List.getElem?_cons_succ] at hsi
                refine (ih _ _ _).2.1 j ?_ s hsi
                simpa using hi
            · simp only [_run_objective_loop, hst, hsc, hmax, hstep]
              simp [hst, hsc, hmax, hstep]
              rcases (ih (if MIN_STEPS ≤ o.steps.length then sIdx + 1
                  else sIdx) (stIdx + 1)
                  { o with
                    status := ObjectiveStatus.in_progress
                    steps := o.steps ++ [st] }).2.2 with ⟨htr, hobj⟩ | hlast
              · rw [htr, hobj]
                simp [List.getLast?_singleton]
              · rcases htr2 : (_run_objective_loop stops step_oracle fuel
                    (if MIN_STEPS ≤ o.steps.length then sIdx + 1 else sIdx)
                    (stIdx + 1)
                    { o with
                      status := ObjectiveStatus.in_progress
                      steps := o.steps ++ [st] }).trace with _ | ⟨x, xs⟩
                · rw [htr2] at hlast
                  simp at hlast
                · rw [htr2] at hlast
                  rw [List.getLast?_cons_cons]
                  exact hlast
      · rcases exc with m | dec
        · refine ⟨?_, ?_, ?_⟩
          · intro hans s hs
            simp [_run_objective_loop, hst, hsc] at hs
            simp [hs, hans, hst]
          · intro i hi s hsi
            simp [_run_objective_loop, hst, hsc] at hi
          · simp [_run_objective_loop, hst, hsc]
        · rcases dec with _ | ans
          · by_cases hmax : MAX_STEPS ≤ o.steps.length
            · refine ⟨?_, ?_, ?_⟩
              · intro hans s hs
                simp [_run_objective_loop, hst, hsc, hmax] at hs
                simp [hs, hans]
              · intro i hi s hsi
                simp [_run_objective_loop, hst, hsc, hmax] at hi
              · simp [_run_objective_loop, hst, hsc, hmax]
            · rcases hstep : step_oracle stIdx with m | st
              · refine ⟨?_, ?_, ?_⟩
                · intro hans s hs
                  simp [_run_objective_loop, hst, hsc, hmax, hstep] at hs
                  simp [hs, hans, hst]
                · intro i hi s hsi
                  simp [_run_objective_loop, hst, hsc, hmax, hstep] at hi
                · simp [_run_objective_loop, hst, hsc, hmax, hstep]
              · refine ⟨?_, ?_, ?_⟩
                · intro hans s hs
                  simp only [_run_objective_loop, hst, hsc, hmax, hstep] at hs
                  simp [hst, hsc, hmax, hstep] at hs
                  rcases hs with hs | hs
                  · simp [hs, hans, hst]
                  · exact (ih _ _ _).1 (by simp [hans]) s hs
                · intro i hi s hsi
                  simp only [_run_objective_loop, hst, hsc, hmax, hstep]
                    at hi hsi
                  simp [hst, hsc, hmax, hstep] at hi hsi
                  rcases i with _ | j
                  · rw [List.getElem?_cons_zero] at hsi
                    injection hsi with h
                    rw [← h]
                  · rw [List.getElem?_cons_succ] at hsi
                    refine (ih _ _ _).2.1 j ?_ s hsi
                    simpa using hi
                · simp only [_run_objective_loop, hst, hsc, hmax, hstep]
                  simp [hst, hsc, hmax, hstep]
                  rcases (ih (if MIN_STEPS ≤ o.steps.length then sIdx + 1
                      else sIdx) (stIdx + 1)
                      { o with
                        status := ObjectiveStatus.in_progress
                        steps := o.steps ++ [st] }).2.2
                      with ⟨htr, hobj⟩ | hlast
                  · rw [htr, hobj]
                    simp [List.getLast?_singleton]
                  · rcases htr2 : (_run_objective_loop stops step_oracle fuel
                        (if MIN_STEPS ≤ o.steps.length then sIdx + 1
                          else sIdx)
                        (stIdx + 1)
                        { o with
                          status := ObjectiveStatus.in_progress
                          steps := o.steps ++ [st] }).trace with _ | ⟨x, xs⟩
                    · rw [htr2] at hlast
                      simp at hlast
                    · rw [htr2] at hlast
                      rw [List.getLast?_cons_cons]
                      exact hlast
          · refine ⟨?_, ?_, ?_⟩
            · intro hans s hs
              simp [_run_objective_loop, hst, hsc] at hs
              simp [hs]
            · intro i hi s hsi
              simp [_run_objective_loop, hst, hsc] at hi
            · simp [_run_objective_loop, hst, hsc]
    · refine ⟨?_, ?_, ?_⟩
      · intro hans s hs
        simp [_run_objective_loop, hst] at hs
      · intro i hi s hsi
        simp [_run_objective_loop, hst] at hi
      · simp [_run_objective_loop, hst]

lemma getLast?_append_cons {α : Type} (l1 : List α) (a : α) (l2 : List α)
    (x : α) (h : l2.getLast? = some x) : (l1 ++ a :: l2).getLast? = some x := by
  rcases l2 with _ | ⟨y, ys⟩
  · simp at h
  · rw [List.getLast?_append]
    rw [List.getLast?_cons_cons, h]
    rfl

lemma getLast?_cons_of {α : Type} (a : α) (l : List α) (x : α)
    (h : l.getLast? = some x) : (a :: l).getLast? = some x := by
  rcases l with _ | ⟨y, ys⟩
  · simp at h
  · rw [List.getLast?_cons_cons]
    exact h

lemma run_loop_completed (stops : Nat → Except String String)
    (step_oracle : Nat → Except String StepState) :
    ∀ (fuel sIdx stIdx : Nat) (o : ObjectiveState),
      o.status = ObjectiveStatus.in_progress →
      (_run_objective_loop stops step_oracle fuel sIdx stIdx
        o).objective.status = ObjectiveStatus.completed →
      ∃ kc res, stops kc = Except.ok res ∧
        _should_stop_objective res = some res ∧
        (_run_objective_loop stops step_oracle fuel sIdx stIdx
          o).objective.answer = some res ∧
        ∃ ksteps,
          (_run_objective_loop stops step_oracle fuel sIdx stIdx
            o).events.getLast? =
            some (RunEvent.stopCheck ksteps (Except.ok (some res))) := by
  intro fuel
  induction fuel with
  | zero =>
    intro sIdx stIdx o h1 h2
    simp [_run_objective_loop] at h2
    rw [h1] at h2
    exact ObjectiveStatus.noConfusion h2
  | succ fuel ih =>
    intro sIdx stIdx o h1 h2
    by_cases hst : o.status = ObjectiveStatus.in_progress
    · rcases hsc : stop_check stops sIdx o with _ | exc
      · by_cases hmax : MAX_STEPS ≤ o.steps.length
        · simp [_run_objective_loop, hst, hsc, hmax] at h2
        · rcases hstep : step_oracle stIdx with m | st
          · simp [_run_objective_loop, hst, hsc, hmax, hstep] at h2
          · simp only [_run_objective_loop, hst, hsc, hmax, hstep] at h2 ⊢
            simp [hst, hsc, hmax, hstep] at h2 ⊢
            rcases ih _ _ _ (by simp) h2
              with ⟨kc, res, hkc, hdec, hans, ksteps, hev⟩
            exact ⟨kc, res, hkc, hdec, hans, ksteps,
              getLast?_cons_of _ _ _ hev⟩
      · rcases exc with m | dec
        · simp [_run_objective_loop, hst, hsc] at h2
        · rcases dec with _ | ans
          · by_cases hmax : MAX_STEPS ≤ o.steps.length
            · simp [_run_objective_loop, hst, hsc, hmax] at h2
            · rcases hstep : step_oracle stIdx with m | st
              · simp [_run_objective_loop, hst, hsc, hmax, hstep] at h2
              · simp only [_run_objective_loop, hst, hsc, hmax, hstep] at h2 ⊢
                simp [hst, hsc, hmax, hstep] at h2 ⊢
                rcases ih _ _ _ (by simp) h2
                  with ⟨kc, res, hkc, hdec, hans, ksteps, hev⟩
                exact ⟨kc, res, hkc, hdec, hans, ksteps,
                  getLast?_cons_of _ _ _ hev⟩
          · obtain ⟨res, hres, hdec⟩ := stop_check_ok stops sIdx o (some ans) hsc
            have hae : ans = res := should_stop_some res ans hdec
            subst hae
            refine ⟨sIdx, ans, hres, hdec, ?_, o.steps.length, ?_⟩
            · simp [_run_objective_loop, hst, hsc]
            · simp [_run_objective_loop, hst, hsc]
    · exact absurd h1 hst

lemma run_loop_terminal (stops : Nat → Except String String)
    (step_oracle : Nat → Except String StepState)
    (hstops : ∀ k, ∃ v, stops k = Except.ok v)
    (hsteps : ∀ k, ∃ st, step_oracle k = Except.ok st) :
    ∀ (fuel sIdx stIdx : Nat) (o : ObjectiveState),
      o.status = ObjectiveStatus.in_progress →
      MAX_STEPS < fuel + o.steps.length → 1 ≤ fuel →
      ((_run_objective_loop stops step_oracle fuel sIdx stIdx
          o).objective.status = ObjectiveStatus.completed ∨
        (_run_objective_loop stops step_oracle fuel sIdx stIdx
          o).objective.status = ObjectiveStatus.failed) := by
  intro fuel
  induction fuel with
  | zero =>
    intro sIdx stIdx o h1 h2 h3
    omega
  | succ fuel ih =>
    intro sIdx stIdx o h1 h2 h3
    by_cases hst : o.status = ObjectiveStatus.in_progress
    · rcases hsc : stop_check stops sIdx o with _ | exc
      · by_cases hmax : MAX_STEPS ≤ o.steps.length
        · right
          simp [_run_objective_loop, hst, hsc, hmax]
        · rcases hstep : step_oracle stIdx with m | st
          · rcases hsteps stIdx with ⟨st, hst2⟩
            rw [hstep] at hst2
            exact Except.noConfusion hst2
          · have hr := ih (if MIN_STEPS ≤ o.steps.length then sIdx + 1
              else sIdx) (stIdx + 1)
              { o with
                status := ObjectiveStatus.in_progress
                steps := o.steps ++ [st] } rfl
              (by simp [List.length_append]; omega) (by omega)
            simp only [_run_objective_loop, hst, hsc, hmax, hstep]
            simp [hst, hsc, hmax, hstep]
            simpa using hr
      · rcases exc with m | dec
        · rcases hstops sIdx with ⟨v, hv⟩
          have := stop_check_error stops sIdx o m hsc
          rw [hv] at this
          exact Except.noConfusion this
        · rcases dec with _ | ans
          · by_cases hmax : MAX_STEPS ≤ o.steps.length
            · right
              simp [_run_objective_loop, hst, hsc, hmax]
            · rcases hstep : step_oracle stIdx with m | st
              · rcases hsteps stIdx with ⟨st, hst2⟩
                rw [hstep] at hst2
                exact Except.noConfusion hst2
              · have hr := ih (if MIN_STEPS ≤ o.steps.length then sIdx + 1
                  else sIdx) (stIdx + 1)
                  { o with
                    status := ObjectiveStatus.in_progress
                    steps := o.steps ++ [st] } rfl
                  (by simp [List.length_append]; omega) (by omega)
                simp only [_run_objective_loop, hst, hsc, hmax, hstep]
                simp [hst, hsc, hmax, hstep]
                simpa using hr
          · left
            simp [_run_objective_loop, hst, hsc]
    · exact absurd h1 hst

/-- C3: in a `_run_objective` run (think.py lines 238-285), the "should
stop" check is never performed while the objective has fewer than
`MIN_STEPS` steps; the objective never holds more than `MAX_STEPS`
steps; a Failed outcome is reached exactly when the step count has
reached `MAX_STEPS` (Failed is the transition taken instead of producing
another step); and when the completion collaborators never raise, the
run always ends Completed or Failed. -/
theorem run_objective_step_bounds (stops : Nat → Except String String)
    (step_oracle : Nat → Except String StepState) (o : ObjectiveState)
    (hsteps0 : o.steps.length ≤ MAX_STEPS) :
    (∀ ev ∈ (_run_objective stops step_oracle o).events, ∀ k d,
      ev = RunEvent.stopCheck k d → MIN_STEPS ≤ k) ∧
    (_run_objective stops step_oracle o).objective.steps.length ≤
      MAX_STEPS ∧
    ((_run_objective stops step_oracle o).objective.status =
        ObjectiveStatus.failed →
      (_run_objective stops step_oracle o).objective.steps.length =
        MAX_STEPS) ∧
    ((∀ k, ∃ v, stops k = Except.ok v) →
      (∀ k, ∃ st, step_oracle k = Except.ok st) →
      ((_run_objective stops step_oracle o).objective.status =
          ObjectiveStatus.completed ∨
        (_run_objective stops step_oracle o).objective.status =
          ObjectiveStatus.failed)) := by
  refine ⟨?_, ?_, ?_, ?_⟩
  · intro ev hev k d hevd
    exact run_loop_stop_min stops step_oracle (MAX_STEPS + 1) 0 0
      { o with status := ObjectiveStatus.in_progress } ev hev k d hevd
  · exact (run_loop_steps stops step_oracle (MAX_STEPS + 1) 0 0
      { o with status := ObjectiveStatus.in_progress }).1 hsteps0
  · intro hf
    exact (run_loop_steps stops step_oracle (MAX_STEPS + 1) 0 0
      { o with status := ObjectiveStatus.in_progress }).2 rfl hsteps0 hf
  · intro hstops hsteps
    exact run_loop_terminal stops step_oracle hstops hsteps (MAX_STEPS + 1)
      0 0 { o with status := ObjectiveStatus.in_progress } rfl (by omega)
      (by omega)

/-- Witness for C3 at a concrete input: with a confident stop oracle and
a working step oracle, the run stays within `MAX_STEPS` steps and ends
in a terminal status. -/
theorem run_objective_step_bounds_witness :
    (_run_objective stops_yes steps_ok
      sample_objective).objective.steps.length ≤ MAX_STEPS ∧
    ((_run_objective stops_yes steps_ok
        sample_objective).objective.status = ObjectiveStatus.completed ∨
      (_run_objective stops_yes steps_ok
        sample_objective).objective.status = ObjectiveStatus.failed) :=
  ⟨(run_objective_step_bounds stops_yes steps_ok sample_objective
      (by decide)).2.1,
    (run_objective_step_bounds stops_yes steps_ok sample_objective
      (by decide)).2.2.2 (fun k => ⟨_, rfl⟩) (fun k => ⟨_, rfl⟩)⟩

/-- C4: over a `_run_objective` run of an objective whose `answer` is
still null, every intermediate state of the objective satisfies
"`answer` non-null iff status Completed"; all states but the final one
are InProgress — once the status becomes Completed or Failed nothing is
mutated again and the run ends (the final state is the run's result);
and a Completed result's `answer` is exactly the accepted stop-check
response, which the interpretation returns verbatim. -/
theorem run_objective_terminal_answer (stops : Nat → Except String String)
    (step_oracle : Nat → Except String StepState) (o : ObjectiveState)
    (hans : o.answer = none) :
    (∀ s ∈ (_run_objective stops step_oracle o).trace,
      ((s.answer ≠ none) ↔ s.status = ObjectiveStatus.completed)) ∧
    (∀ i, i + 1 < (_run_objective stops step_oracle o).trace.length →
      ∀ s, (_run_objective stops step_oracle o).trace[i]? = some s →
        s.status = ObjectiveStatus.in_progress) ∧
    ((_run_objective stops step_oracle o).trace.getLast? =
      some (_run_objective stops step_oracle o).objective) ∧
    ((_run_objective stops step_oracle o).objective.status =
        ObjectiveStatus.completed →
      ∃ kc res, stops kc = Except.ok res ∧
        _should_stop_objective res = some res ∧
        (_run_objective stops step_oracle o).objective.answer = some res) ∧
    (∀ res a, _should_stop_objective res = some a → a = res) := by
  refine ⟨?_, ?_, ?_, ?_, ?_⟩
  · intro s hs
    rcases List.mem_cons.mp hs with hs | hs
    · rw [hs]
      simp [hans]
    · exact (run_loop_trace stops step_oracle (MAX_STEPS + 1) 0 0
        { o with status := ObjectiveStatus.in_progress }).1 hans s hs
  · intro i hi s hsi
    have htr0 : (_run_objective stops step_oracle o).trace =
        { o with status := ObjectiveStatus.in_progress } ::
          (_run_objective_loop stops step_oracle (MAX_STEPS + 1) 0 0
            { o with status := ObjectiveStatus.in_progress }).trace := rfl
    rw [htr0] at hsi hi
    rcases i with _ | j
    · rw [List.getElem?_cons_zero] at hsi
      injection hsi with h
      rw [← h]
    · rw [List.getElem?_cons_succ] at hsi
      rw [List.length_cons] at hi
      exact (run_loop_trace stops step_oracle (MAX_STEPS + 1) 0 0
        { o with status := ObjectiveStatus.in_progress }).2.1 j (by omega)
        s hsi
  · have htr0 : (_run_objective stops step_oracle o).trace =
        { o with status := ObjectiveStatus.in_progress } ::
          (_run_objective_loop stops step_oracle (MAX_STEPS + 1) 0 0
            { o with status := ObjectiveStatus.in_progress }).trace := rfl
    have hobj0 : (_run_objective stops step_oracle o).objective =
        (_run_objective_loop stops step_oracle (MAX_STEPS + 1) 0 0
          { o with status := ObjectiveStatus.in_progress }).objective := rfl
    rw [htr0, hobj0]
    rcases (run_loop_trace stops step_oracle (MAX_STEPS + 1) 0 0
      { o with status := ObjectiveStatus.in_progress }).2.2
      with ⟨htr, hobj⟩ | hlast
    · rw [htr, hobj]
      simp [List.getLast?_singleton]
    · exact getLast?_cons_of _ _ _ hlast
  · intro hc
    rcases run_loop_completed stops step_oracle (MAX_STEPS + 1) 0 0
      { o with status := ObjectiveStatus.in_progress } rfl hc
      with ⟨kc, res, hkc, hdec, hansr, _⟩
    exact ⟨kc, res, hkc, hdec, hansr⟩
  · intro res a h
    exact should_stop_some res a h

/-- Witness for C4 at a concrete input: the final trace entry is the
result, and completion carries the accepted response as the answer. -/
theorem run_objective_terminal_answer_witness :
    ((_run_objective stops_yes steps_ok sample_objective).trace.getLast? =
      some (_run_objective stops_yes steps_ok sample_objective).objective) ∧
    ∃ kc res, stops_yes kc = Except.ok res ∧
      _should_stop_objective res = some res ∧
      (_run_objective stops_yes steps_ok
        sample_objective).objective.answer = some res :=
  ⟨(run_objective_terminal_answer stops_yes steps_ok sample_objective
      rfl).2.2.1,
    (run_objective_terminal_answer stops_yes steps_ok sample_objective
      rfl).2.2.2.1 (by decide)⟩

/-! ## C5 — the objectives list only grows, capped at `MAX_OBJECTIVES` -/

lemma barrier_run_length (run_obj : ObjectiveState → ObjectiveState)
    (l : List SchedObj) : (barrier_run run_obj l).length = l.length := by
  simp [barrier_run]

lemma barrier_run_names (run_obj : ObjectiveState → ObjectiveState)
    (hrun : ∀ o2, (run_obj o2).short_name = o2.short_name)
    (l : List SchedObj) :
    (barrier_run run_obj l).map (fun p => p.state.short_name) =
      l.map (fun p => p.state.short_name) := by
  induction l with
  | nil => rfl
  | cons p t ih =>
    simp only [barrier_run, List.map_cons] at ih ⊢
    rw [ih]
    by_cases hp : p.scheduled <;> simp [hp, hrun]

lemma accept_proposals_facts :
    ∀ (proposals : List ObjectiveState) (objectives : List SchedObj),
      (objectives.length ≤ MAX_OBJECTIVES →
        (accept_proposals objectives proposals).1.length ≤ MAX_OBJECTIVES) ∧
      (∃ ext, (accept_proposals objectives proposals).1.map
          (fun p => p.state.short_name) =
        objectives.map (fun p => p.state.short_name) ++ ext) ∧
      (MAX_OBJECTIVES ≤ objectives.length →
        (accept_proposals objectives proposals).1 = objectives ∧
        (accept_proposals objectives proposals).2 = 0) := by
  intro proposals
  induction proposals with
  | nil =>
    intro objectives
    exact ⟨fun h => h, ⟨[], by simp [accept_proposals]⟩, fun _ => ⟨rfl, rfl⟩⟩
  | cons p ps ih =>
    intro objectives
    by_cases h5 : MAX_OBJECTIVES ≤ objectives.length
    · refine ⟨fun h => ?_, ⟨[], ?_⟩, fun _ => ⟨?_, ?_⟩⟩
      · simpa [accept_proposals, h5] using h
      · simp [accept_proposals, h5]
      · simp [accept_proposals, h5]
      · simp [accept_proposals, h5]
    · have ih2 := ih (objectives ++ [⟨p, true⟩])
      refine ⟨fun h => ?_, ?_, fun h => absurd h h5⟩
      · have hl : (objectives ++ [(⟨p, true⟩ : SchedObj)]).length ≤
            MAX_OBJECTIVES := by
          rw [List.length_append, List.length_singleton]
          omega
        simpa [accept_proposals, h5] using ih2.1 hl
      · rcases ih2.2.1 with ⟨ext, hext⟩
        refine ⟨p.short_name :: ext, ?_⟩
        have : (accept_proposals (objectives ++ [⟨p, true⟩]) ps).1.map
            (fun pr => pr.state.short_name) =
            objectives.map (fun pr => pr.state.short_name) ++
              p.short_name :: ext := by
          rw [hext]
          simp
        simpa [accept_proposals, h5] using this

/-- C5: over the `think` scheduling loop, the objectives list only ever
grows — its projection to objective names is extended, never shortened
or reordered — and its length never exceeds `MAX_OBJECTIVES`; once the
count has reached the cap, nothing more is ever appended, whatever the
proposal oracle returns; a `think` run's objectives list (seeded with
the root objective) therefore stays within the cap; and a successfully
validated `_detect_new_objectives` proposal round has at most 3 tasks
(the pydantic `max_length=3` bound). -/
theorem think_objectives_growth (run_obj : ObjectiveState → ObjectiveState)
    (detect : Nat → List ObjectiveState) (fuel round : Nat)
    (objectives : List SchedObj) (q : String)
    (hrun : ∀ o2, (run_obj o2).short_name = o2.short_name) :
    (objectives.length ≤ MAX_OBJECTIVES →
      (think_loop run_obj detect fuel round objectives).length ≤
        MAX_OBJECTIVES) ∧
    (∃ ext, (think_loop run_obj detect fuel round objectives).map
        (fun p => p.state.short_name) =
      objectives.map (fun p => p.state.short_name) ++ ext) ∧
    (MAX_OBJECTIVES ≤ objectives.length →
      (think_loop run_obj detect fuel round objectives).map
        (fun p => p.state.short_name) =
        objectives.map (fun p => p.state.short_name)) ∧
    (think_objectives run_obj detect fuel q).length ≤ MAX_OBJECTIVES ∧
    (∀ tasks res, detect_res_validate tasks = Except.ok res →
      res.length ≤ 3) := by
  have main : ∀ (fuel round : Nat) (objectives : List SchedObj),
      (objectives.length ≤ MAX_OBJECTIVES →
        (think_loop run_obj detect fuel round objectives).length ≤
          MAX_OBJECTIVES) ∧
      (∃ ext, (think_loop run_obj detect fuel round objectives).map
          (fun p => p.state.short_name) =
        objectives.map (fun p => p.state.short_name) ++ ext) ∧
      (MAX_OBJECTIVES ≤ objectives.length →
        (think_loop run_obj detect fuel round objectives).map
          (fun p => p.state.short_name) =
          objectives.map (fun p => p.state.short_name)) := by
    intro fuel
    induction fuel with
    | zero =>
      intro round objectives
      exact ⟨fun h => by simpa [think_loop] using h,
        ⟨[], by simp [think_loop]⟩, fun _ => by simp [think_loop]⟩
    | succ fuel ih =>
      intro round objectives
      by_cases hcond : ∃ x ∈ objectives,
          x.state.status = ObjectiveStatus.in_progress ∨
            x.state.status = ObjectiveStatus.pending
      · have hA := accept_proposals_facts (detect round)
          (barrier_run run_obj objectives)
        have hAlen := barrier_run_length run_obj objectives
        have hAnames := barrier_run_names run_obj hrun objectives
        by_cases hz : (accept_proposals (barrier_run run_obj objectives)
            (detect round)).2 = 0
        · by_cases h5 : MAX_OBJECTIVES ≤
              (accept_proposals (barrier_run run_obj objectives)
                (detect round)).1.length
          · refine ⟨fun h => ?_, ?_, fun h => ?_⟩
            · have := hA.1 (by omega)
              simpa [think_loop, hcond, hz, h5] using this
            · rcases hA.2.1 with ⟨ext, hext⟩
              refine ⟨ext, ?_⟩
              rw [hAnames] at hext
              simpa [think_loop, hcond, hz, h5] using hext
            · have hacc := hA.2.2 (by omega)
              have : (accept_proposals (barrier_run run_obj objectives)
                  (detect round)).1.map (fun p => p.state.short_name) =
                  objectives.map (fun p => p.state.short_name) := by
                rw [hacc.1, hAnames]
              simpa [think_loop, hcond, hz, h5] using this
          · have ihf := ih (round + 1)
              (accept_proposals (barrier_run run_obj objectives)
                (detect round)).1
            refine ⟨fun h => ?_, ?_, fun h => ?_⟩
            · have := ihf.1 (hA.1 (by omega))
              simpa [think_loop, hcond, hz, h5] using this
            · rcases ihf.2.1 with ⟨ext2, hext2⟩
              rcases hA.2.1 with ⟨ext, hext⟩
              rw [hext, hAnames] at hext2
              refine ⟨ext ++ ext2, ?_⟩
              rw [List.append_assoc] at hext2
              simpa [think_loop, hcond, hz, h5] using hext2
            · exfalso
              have hacc := hA.2.2 (by omega)
              apply h5
              rw [hacc.1, hAlen]
              omega
        · have ihf := ih (round + 1)
            (accept_proposals (barrier_run run_obj objectives)
              (detect round)).1
          refine ⟨fun h => ?_, ?_, fun h => ?_⟩
          · have := ihf.1 (hA.1 (by omega))
            simpa [think_loop, hcond, hz] using this
          · rcases ihf.2.1 with ⟨ext2, hext2⟩
            rcases hA.2.1 with ⟨ext, hext⟩
            rw [hext, hAnames] at hext2
            refine ⟨ext ++ ext2, ?_⟩
            rw [List.append_assoc] at hext2
            simpa [think_loop, hcond, hz] using hext2
          · exfalso
            exact hz (hA.2.2 (by omega)).2
      · exact ⟨fun h => by simpa [think_loop, hcond] using h,
          ⟨[], by simp [think_loop, hcond]⟩,
          fun _ => by simp [think_loop, hcond]⟩
  refine ⟨(main fuel round objectives).1, (main fuel round objectives).2.1,
    (main fuel round objectives).2.2, ?_, ?_⟩
  · refine (main fuel 0 [⟨think_root q, true⟩]).1 ?_
    rw [List.length_singleton]
    rw [MAX_OBJECTIVES]
    omega
  · intro tasks res h
    unfold detect_res_validate at h
    by_cases h3 : 3 < tasks.length
    · rw [if_pos h3] at h
      exact Except.noConfusion h
    · rw [if_neg h3] at h
      injection h with h2
      rw [← h2]
      omega

/-- Witness for C5 at a concrete input: a run seeded with the root
objective and a proposal oracle that proposes nothing stays within the
cap, and an empty validated proposal round has at most 3 tasks. -/
theorem think_objectives_growth_witness :
    (think_loop (fun o2 => o2) (fun _ => []) 3 0
      [⟨think_root "Q", true⟩]).length ≤ MAX_OBJECTIVES ∧
    (think_objectives (fun o2 => o2) (fun _ => []) 3 "Q").length ≤
      MAX_OBJECTIVES ∧
    ([] : List ProposedTask).length ≤ 3 :=
  ⟨(think_objectives_growth (fun o2 => o2) (fun _ => []) 3 0
      [⟨think_root "Q", true⟩] "Q" (fun _ => rfl)).1
      (by simp [MAX_OBJECTIVES]),
    (think_objectives_growth (fun o2 => o2) (fun _ => []) 3 0
      [⟨think_root "Q", true⟩] "Q" (fun _ => rfl)).2.2.2.1,
    (think_objectives_growth (fun o2 => o2) (fun _ => []) 3 0
      [⟨think_root "Q", true⟩] "Q" (fun _ => rfl)).2.2.2.2 [] [] rfl⟩
